import Mathlib

/-!
Verification of the Oxia shard replication core against its sources.

The development shallowly embeds three source artefacts:

* the TLA+ model `OxiaReplication` (leader election, replication,
  reconfiguration, operator crashes) as a transition system on an explicit
  global state, one Lean definition per TLA+ action;
* the WAL trimmer (`doTrim` / `binarySearch` from the Go `wal` package);
* the client options (`options.go` from the Go `oxia` package).

TLA+ CONSTANTS `Nodes`, `Operators`, `Values` are arbitrary finite sets; they
are embedded as `Fin NN`, `Fin NO`, `Fin NV` for arbitrary cardinalities,
matching TLC's finite model values.  TLA+ `CHOOSE` over a set is an arbitrary
but deterministic selection; wherever the model applies it (`WinnerResponse`,
`HeadEntry`, `NextEntry`, `GetEntry`, `GetHighestEntryOfEpoch`,
`NewCommitIndex`) the selected element is unique up to the use made of it, and
it is determinized here by taking the least/greatest element in a fixed linear
order, which is also how TLC evaluates a `CHOOSE`.

The `MessagePassing` module the TLA+ model extends is not part of the given
sources; it is modelled from the spec (reliable at-least-once fabric, messages
pending until processed, add-entry streams delivered in per-peer id order,
messages of a crashed operator lost).
-/

/-! ### EntryId and its total order (TLA+ `EntryId`, `CompareLogEntries`) -/

/-- TLA+: `EntryId == [offset: Nat, epoch: Epoch]`. -/
structure EntryId where
  offset : ℕ
  epoch : ℕ
deriving DecidableEq

/-- TLA+ `NoEntryId == [offset |-> 0, epoch |-> 0]`. -/
def NoEntryId : EntryId := ⟨0, 0⟩

/-- TLA+ `CompareLogEntries`: 1 if the first id is greater, 0 if equal,
-1 if lower; epochs are compared before offsets. -/
def CompareLogEntries (entry_id1 entry_id2 : EntryId) : Int :=
  if entry_id1.epoch > entry_id2.epoch then 1
  else
    if entry_id1.epoch = entry_id2.epoch ∧ entry_id1.offset > entry_id2.offset then 1
    else
      if entry_id1.epoch = entry_id2.epoch ∧ entry_id1.offset = entry_id2.offset then 0
      else -1

/-- TLA+ `IsLowerId`. -/
def IsLowerId (entry_id1 entry_id2 : EntryId) : Prop :=
  CompareLogEntries entry_id1 entry_id2 = -1

/-- TLA+ `IsLowerOrEqualId`. -/
def IsLowerOrEqualId (entry_id1 entry_id2 : EntryId) : Prop :=
  CompareLogEntries entry_id1 entry_id2 = -1 ∨ CompareLogEntries entry_id1 entry_id2 = 0

/-- TLA+ `IsHigherId`. -/
def IsHigherId (entry_id1 entry_id2 : EntryId) : Prop :=
  CompareLogEntries entry_id1 entry_id2 = 1

/-- TLA+ `IsHigherOrEqualId`. -/
def IsHigherOrEqualId (entry_id1 entry_id2 : EntryId) : Prop :=
  CompareLogEntries entry_id1 entry_id2 = 0 ∨ CompareLogEntries entry_id1 entry_id2 = 1

/-- TLA+ `IsSameId`. -/
def IsSameId (entry_id1 entry_id2 : EntryId) : Prop :=
  CompareLogEntries entry_id1 entry_id2 = 0

instance (a b : EntryId) : Decidable (IsLowerId a b) := by unfold IsLowerId; infer_instance

instance (a b : EntryId) : Decidable (IsLowerOrEqualId a b) := by
  unfold IsLowerOrEqualId; infer_instance

instance (a b : EntryId) : Decidable (IsHigherId a b) := by unfold IsHigherId; infer_instance

instance (a b : EntryId) : Decidable (IsHigherOrEqualId a b) := by
  unfold IsHigherOrEqualId; infer_instance

instance (a b : EntryId) : Decidable (IsSameId a b) := by unfold IsSameId; infer_instance

/-- Key embedding of an entry id into the lexicographic product (epoch, offset):
the order it induces coincides with `CompareLogEntries`. -/
def eidKey (e : EntryId) : Lex (ℕ × ℕ) := toLex (e.epoch, e.offset)

theorem eidKey_injective : Function.Injective eidKey := by
  intro a b h
  cases a; cases b
  simp only [eidKey, toLex, Equiv.coe_fn_mk, Prod.mk.injEq] at h
  simp_all

instance : LinearOrder EntryId := LinearOrder.lift' eidKey eidKey_injective

theorem eid_lt_iff (a b : EntryId) :
    a < b ↔ a.epoch < b.epoch ∨ (a.epoch = b.epoch ∧ a.offset < b.offset) := by
  show eidKey a < eidKey b ↔ _
  rw [eidKey, eidKey, Prod.Lex.lt_iff]

theorem eid_le_iff (a b : EntryId) :
    a ≤ b ↔ a.epoch < b.epoch ∨ (a.epoch = b.epoch ∧ a.offset ≤ b.offset) := by
  show eidKey a ≤ eidKey b ↔ _
  rw [eidKey, eidKey, Prod.Lex.le_iff]

theorem isHigherId_iff_lt (a b : EntryId) : IsHigherId a b ↔ b < a := by
  rw [eid_lt_iff]
  unfold IsHigherId CompareLogEntries
  split_ifs <;> simp_all

theorem isLowerId_iff_lt (a b : EntryId) : IsLowerId a b ↔ a < b := by
  rw [eid_lt_iff]
  unfold IsLowerId CompareLogEntries
  split_ifs <;> simp_all <;> omega

theorem isSameId_iff_eq (a b : EntryId) : IsSameId a b ↔ a = b := by
  unfold IsSameId CompareLogEntries
  split_ifs <;> cases a <;> cases b <;> simp_all <;> omega

theorem isLowerOrEqualId_iff_le (a b : EntryId) : IsLowerOrEqualId a b ↔ a ≤ b := by
  unfold IsLowerOrEqualId
  rw [show (CompareLogEntries a b = -1) = IsLowerId a b from rfl,
      show (CompareLogEntries a b = 0) = IsSameId a b from rfl,
      isLowerId_iff_lt, isSameId_iff_eq, le_iff_lt_or_eq]

theorem isHigherOrEqualId_iff_le (a b : EntryId) : IsHigherOrEqualId a b ↔ b ≤ a := by
  unfold IsHigherOrEqualId
  rw [show (CompareLogEntries a b = 1) = IsHigherId a b from rfl,
      show (CompareLogEntries a b = 0) = IsSameId a b from rfl,
      isHigherId_iff_lt, isSameId_iff_eq, le_iff_lt_or_eq]
  constructor
  · rintro (h | h)
    · exact Or.inr h.symm
    · exact Or.inl h
  · rintro (h | h)
    · exact Or.inr h
    · exact Or.inl h.symm

/-! ### WAL trimmer (Go `wal` package, `trimmer.go`)

The WAL is abstracted by its first and last offsets and the timestamp stored
at each offset; `readAtOffset` in the source reads the entry at a given offset
and returns its timestamp, embedded here as the function `entryTimestamp`.
Go `int64` offsets are embedded as `Int`; all offsets handled by the trimmer
are nonnegative, where Go and Lean integer division and remainder agree. -/

/-- Sentinel for an empty wal (`InvalidOffset = -1`). -/
def InvalidOffset : Int := -1

/-- Abstraction of the `Wal` interface used by the trimmer. -/
structure Wal where
  firstOffset : Int
  lastOffset : Int
  entryTimestamp : Int → Int

/-- The loop body of `trimmer.binarySearch`, with the loop variant
`(lastOffset - firstOffset).toNat` made explicit as structural fuel.  The fuel
equals the variant at entry and each iteration shrinks the bracket by at least
one, so the fuel never runs out before `firstOffset < lastOffset` fails; this
is proved inside `binarySearchGo_spec`. -/
def binarySearchGo (w : Wal) (cutoffTime : Int) : ℕ → Int → Int → Int
  | 0, firstOffset, _ => firstOffset
  | fuel + 1, firstOffset, lastOffset =>
    if firstOffset < lastOffset then
      let med0 := (firstOffset + lastOffset) / 2
      let med := if (firstOffset + lastOffset) % 2 > 0 then med0 + 1 else med0
      if cutoffTime < w.entryTimestamp med then
        binarySearchGo w cutoffTime fuel firstOffset (med - 1)
      else
        binarySearchGo w cutoffTime fuel med lastOffset
    else firstOffset

/-- Go `trimmer.binarySearch(firstOffset, lastOffset, cutoffTime)`: find the
highest offset whose entry falls within the cutoff time, bisecting with a
ceiling midpoint. -/
def binarySearch (w : Wal) (firstOffset lastOffset cutoffTime : Int) : Int :=
  binarySearchGo w cutoffTime (lastOffset - firstOffset).toNat firstOffset lastOffset

/-- Go `trimmer.doTrim`, returning the offset passed to `wal.Trim` (`none`
when no trim is invoked).  The wal is untouched when the log is empty or the
first entry has not expired; otherwise the prefix up to and including the
returned offset is discarded by `Trim`. -/
def doTrim (w : Wal) (now retention : Int) : Option Int :=
  if w.lastOffset = InvalidOffset then none
  else
    let cutoffTime := now - retention
    if cutoffTime < w.entryTimestamp w.firstOffset then none
    else some (binarySearch w w.firstOffset w.lastOffset cutoffTime)

theorem binarySearchGo_spec (w : Wal) (cutoffTime : Int) :
    ∀ (fuel : ℕ) (f l : Int), (l - f).toNat ≤ fuel → 0 ≤ f → f ≤ l →
      (∀ o1 o2, f ≤ o1 → o1 ≤ o2 → o2 ≤ l → w.entryTimestamp o1 ≤ w.entryTimestamp o2) →
      w.entryTimestamp f ≤ cutoffTime →
      f ≤ binarySearchGo w cutoffTime fuel f l ∧
      binarySearchGo w cutoffTime fuel f l ≤ l ∧
      w.entryTimestamp (binarySearchGo w cutoffTime fuel f l) ≤ cutoffTime ∧
      (∀ o, f ≤ o → o ≤ l → w.entryTimestamp o ≤ cutoffTime →
        o ≤ binarySearchGo w cutoffTime fuel f l) := by
  intro fuel
  induction fuel with
  | zero =>
    intro f l hfuel _ hfl hmono hexp
    have : f = l := by omega
    subst this
    refine ⟨le_refl _, le_refl _, hexp, ?_⟩
    intro o h1 h2 _
    simpa [binarySearchGo] using le_trans h2 (by omega)
  | succ n ih =>
    intro f l hfuel hf hfl hmono hexp
    by_cases hlt : f < l
    · have hmed : f + 1 ≤ (if (f + l) % 2 > 0 then (f + l) / 2 + 1 else (f + l) / 2) ∧
          (if (f + l) % 2 > 0 then (f + l) / 2 + 1 else (f + l) / 2) ≤ l := by
        constructor <;> (split <;> omega)
      set med := if (f + l) % 2 > 0 then (f + l) / 2 + 1 else (f + l) / 2 with hmeddef
      by_cases hcut : cutoffTime < w.entryTimestamp med
      · have hrec : binarySearchGo w cutoffTime (n + 1) f l =
            binarySearchGo w cutoffTime n f (med - 1) := by
          rw [binarySearchGo]
          simp only [hlt, if_true, ← hmeddef, hcut, if_true]
        have ihres := ih f (med - 1) (by omega) hf (by omega)
          (fun o1 o2 h1 h2 h3 => hmono o1 o2 h1 h2 (by omega)) hexp
        rw [hrec]
        refine ⟨ihres.1, by omega, ihres.2.2.1, ?_⟩
        intro o h1 h2 h3
        by_cases homed : o ≤ med - 1
        · exact ihres.2.2.2 o h1 homed h3
        · exfalso
          have : w.entryTimestamp med ≤ w.entryTimestamp o :=
            hmono med o (by omega) (by omega) h2
          omega
      · have hrec : binarySearchGo w cutoffTime (n + 1) f l =
            binarySearchGo w cutoffTime n med l := by
          rw [binarySearchGo]
          simp only [hlt, if_true, ← hmeddef, hcut, if_false]
        have ihres := ih med l (by omega) (by omega) (by omega)
          (fun o1 o2 h1 h2 h3 => hmono o1 o2 (by omega) h2 h3) (by omega)
        rw [hrec]
        refine ⟨by omega, ihres.2.1, ihres.2.2.1, ?_⟩
        intro o h1 h2 h3
        by_cases homed : med ≤ o
        · exact ihres.2.2.2 o homed h2 h3
        · have := ihres.1
          omega
    · have : f = l := by omega
      subst this
      have hres : binarySearchGo w cutoffTime (n + 1) f f = f := by
        rw [binarySearchGo]
        simp
      rw [hres]
      exact ⟨le_refl _, le_refl _, hexp, fun o _ h2 _ => h2⟩

/-- Claim C9: a trim pass leaves the wal unchanged when the log is empty or
the first entry's timestamp is after `now - retention`; otherwise, on a log
with timestamps non-decreasing in offset, `doTrim` invokes `Trim` with exactly
the largest offset in `[firstOffset, lastOffset]` whose timestamp is at most
the cutoff `now - retention` (the binary search with ceiling midpoint
terminates by construction, its loop variant being the explicit fuel). -/
theorem doTrim_spec (w : Wal) (now retention : Int)
    (hmono : ∀ o1 o2, w.firstOffset ≤ o1 → o1 ≤ o2 → o2 ≤ w.lastOffset →
      w.entryTimestamp o1 ≤ w.entryTimestamp o2)
    (hfirst : 0 ≤ w.firstOffset) :
    (w.lastOffset = InvalidOffset → doTrim w now retention = none) ∧
    (now - retention < w.entryTimestamp w.firstOffset → doTrim w now retention = none) ∧
    (w.firstOffset ≤ w.lastOffset → w.entryTimestamp w.firstOffset ≤ now - retention →
      ∃ r, doTrim w now retention = some r ∧
        w.firstOffset ≤ r ∧ r ≤ w.lastOffset ∧
        w.entryTimestamp r ≤ now - retention ∧
        (∀ o, w.firstOffset ≤ o → o ≤ w.lastOffset →
          w.entryTimestamp o ≤ now - retention → o ≤ r)) := by
  refine ⟨fun hempty => by simp [doTrim, hempty], fun hfresh => ?_, fun hfl hexp => ?_⟩
  · unfold doTrim
    split
    · rfl
    · simp only [hfresh, if_true]
  · have hvalid : w.lastOffset ≠ InvalidOffset := by unfold InvalidOffset; omega
    have hspec := binarySearchGo_spec w (now - retention)
      (w.lastOffset - w.firstOffset).toNat w.firstOffset w.lastOffset
      (le_refl _) hfirst hfl hmono hexp
    refine ⟨binarySearch w w.firstOffset w.lastOffset (now - retention), ?_,
      hspec.1, hspec.2.1, hspec.2.2.1, hspec.2.2.2⟩
    simp only [doTrim]
    rw [if_neg hvalid, if_neg (not_lt.mpr hexp)]

/-- Witness for `doTrim_spec`: a five-entry log with identity timestamps and
cutoff 3 is trimmed at offset 3. -/
theorem doTrim_spec_witness :
    (0 : Int) ≤ 0 ∧ (0 : Int) ≤ 5 ∧
      (Wal.mk 0 5 (fun o => o)).entryTimestamp 0 ≤ 100 - 97 ∧
      ∃ r, doTrim (Wal.mk 0 5 (fun o => o)) 100 97 = some r ∧
        (0 : Int) ≤ r ∧ r ≤ 5 ∧
        (Wal.mk 0 5 (fun o => o)).entryTimestamp r ≤ 100 - 97 ∧
        (∀ o, (0 : Int) ≤ o → o ≤ 5 →
          (Wal.mk 0 5 (fun o => o)).entryTimestamp o ≤ 100 - 97 → o ≤ r) := by
  refine ⟨by norm_num, by norm_num, by norm_num, ?_⟩
  exact (doTrim_spec (Wal.mk 0 5 (fun o => o)) 100 97
    (fun o1 o2 h1 h2 h3 => h2) (by norm_num)).2.2 (by norm_num) (by norm_num)

/-! ### Client options (Go `oxia` package, `options.go`)

Go `time.Duration` values are embedded as `Int` nanoseconds. -/

/-- Default batch linger: 5 milliseconds in nanoseconds. -/
def DefaultBatchLinger : Int := 5 * 1000000

/-- Default maximum requests per batch. -/
def DefaultMaxRequestsPerBatch : Int := 1000

/-- Default batch request timeout: 30 seconds in nanoseconds. -/
def DefaultBatchRequestTimeout : Int := 30 * 1000000000

/-- The sentinel errors of `options.go`. -/
inductive OxiaError where
  | errorBatchLinger
  | errorMaxRequestsPerBatch
  | errorBatchRequestTimeout
deriving DecidableEq

/-- Go `ClientOptions`. -/
structure ClientOptions where
  serviceUrl : String
  batchLinger : Int
  maxRequestsPerBatch : Int
  batchRequestTimeout : Int
deriving DecidableEq

/-- Go `ClientOption`: `apply` maps options to new options plus an optional
error. -/
def ClientOption : Type := ClientOptions → ClientOptions × Option OxiaError

/-- Go `WithBatchLinger`. -/
def WithBatchLinger (batchLinger : Int) : ClientOption := fun options =>
  if batchLinger < 0 then (options, some .errorBatchLinger)
  else ({ options with batchLinger := batchLinger }, none)

/-- Go `WithMaxRequestsPerBatch`. -/
def WithMaxRequestsPerBatch (maxRequestsPerBatch : Int) : ClientOption := fun options =>
  if maxRequestsPerBatch ≤ 0 then (options, some .errorMaxRequestsPerBatch)
  else ({ options with maxRequestsPerBatch := maxRequestsPerBatch }, none)

/-- Go `WithBatchRequestTimeout`. -/
def WithBatchRequestTimeout (batchRequestTimeout : Int) : ClientOption := fun options =>
  if batchRequestTimeout ≤ 0 then (options, some .errorBatchRequestTimeout)
  else ({ options with batchRequestTimeout := batchRequestTimeout }, none)

/-- Go `NewClientOptions`: start from the defaults and apply each option in
order, collecting the errors (`multierr` is embedded as the list of non-nil
errors in application order; the aggregate is nil exactly when the list is
empty). -/
def NewClientOptions (serviceUrl : String) (opts : List ClientOption) :
    ClientOptions × List OxiaError :=
  opts.foldl
    (fun acc o =>
      let r := o acc.1
      (r.1, acc.2 ++ r.2.toList))
    (⟨serviceUrl, DefaultBatchLinger, DefaultMaxRequestsPerBatch, DefaultBatchRequestTimeout⟩, [])

/-- Claim C10: with no options the batch request timeout is the default 30
seconds; `WithBatchRequestTimeout d` for `d ≤ 0` contributes
`ErrorBatchRequestTimeout` to the aggregated error and leaves the timeout at
its prior (default) value; for `d > 0` it sets the timeout to `d` and
contributes no error. -/
theorem newClientOptions_batchRequestTimeout_spec (u : String) (d : Int) :
    ((NewClientOptions u []).1.batchRequestTimeout = DefaultBatchRequestTimeout ∧
      DefaultBatchRequestTimeout = 30 * 1000000000 ∧ (NewClientOptions u []).2 = []) ∧
    (d ≤ 0 →
      (∀ options, WithBatchRequestTimeout d options = (options, some .errorBatchRequestTimeout)) ∧
      (NewClientOptions u [WithBatchRequestTimeout d]).1.batchRequestTimeout =
        DefaultBatchRequestTimeout ∧
      (NewClientOptions u [WithBatchRequestTimeout d]).2 = [.errorBatchRequestTimeout]) ∧
    (0 < d →
      (∀ options, WithBatchRequestTimeout d options =
        ({ options with batchRequestTimeout := d }, none)) ∧
      (NewClientOptions u [WithBatchRequestTimeout d]).1.batchRequestTimeout = d ∧
      (NewClientOptions u [WithBatchRequestTimeout d]).2 = []) := by
  refine ⟨⟨rfl, rfl, rfl⟩, fun hd => ?_, fun hd => ?_⟩
  · have happ : ∀ options, WithBatchRequestTimeout d options =
        (options, some .errorBatchRequestTimeout) := by
      intro options
      simp [WithBatchRequestTimeout, hd]
    refine ⟨happ, ?_, ?_⟩ <;>
      simp [NewClientOptions, happ]
  · have hd' : ¬d ≤ 0 := by omega
    have happ : ∀ options, WithBatchRequestTimeout d options =
        ({ options with batchRequestTimeout := d }, none) := by
      intro options
      simp [WithBatchRequestTimeout, hd']
    refine ⟨happ, ?_, ?_⟩ <;>
      simp [NewClientOptions, happ]

/-- An arbitrary concrete service url for the witness. -/
def witnessUrl : String := ""

/-- Witness for `newClientOptions_batchRequestTimeout_spec` at `d = -1` (and,
via a second application, at `d = 7`). -/
theorem newClientOptions_batchRequestTimeout_witness :
    ((-1 : Int) ≤ 0 ∧
      (NewClientOptions witnessUrl [WithBatchRequestTimeout (-1)]).1.batchRequestTimeout =
        DefaultBatchRequestTimeout ∧
      (NewClientOptions witnessUrl [WithBatchRequestTimeout (-1)]).2 =
        [.errorBatchRequestTimeout]) ∧
    ((0 : Int) < 7 ∧
      (NewClientOptions witnessUrl [WithBatchRequestTimeout 7]).1.batchRequestTimeout = 7 ∧
      (NewClientOptions witnessUrl [WithBatchRequestTimeout 7]).2 = []) := by
  have h1 := (newClientOptions_batchRequestTimeout_spec witnessUrl (-1)).2.1 (by norm_num)
  have h2 := (newClientOptions_batchRequestTimeout_spec witnessUrl 7).2.2 (by norm_num)
  exact ⟨⟨by norm_num, h1.2.1, h1.2.2⟩, ⟨by norm_num, h2.2.1, h2.2.2⟩⟩

/-! ### Protocol data model (TLA+ module `OxiaReplication`)

CONSTANTS `Nodes`, `Operators`, `Values` are arbitrary finite sets, embedded
as `Fin NN`, `Fin NO`, `Fin NV`.  The remaining CONSTANTS (`RepFactor`,
`MaxEpochs`, `MaxOperatorStops`) are collected in `ProtoConsts`. -/

/-- TLA+ node statuses `LEADER, FOLLOWER, FENCED, NOT_MEMBER`. -/
inductive NodeStatus where
  | leader
  | follower
  | fenced
  | notMember
deriving DecidableEq

/-- TLA+ follow-cursor states, with `nil` for the `NIL` status of `NoCursor`. -/
inductive CursorStatus where
  | nil
  | attached
  | pendingTruncate
  | pendingRemoval
deriving DecidableEq

/-- TLA+ shard statuses, with `nil` for the initial `NIL`. -/
inductive ShardStatus where
  | nil
  | steadyState
  | election
  | reconfiguration
deriving DecidableEq

/-- TLA+ operator statuses `RUNNING, NOT_RUNNING`. -/
inductive OperatorStatus where
  | running
  | notRunning
deriving DecidableEq

/-- TLA+ election phases, with `nil` for `NIL`. -/
inductive ElectionPhase where
  | nil
  | fencing
  | notifyLeader
  | leaderElected
deriving DecidableEq

/-- TLA+ reconfiguration ops `NODE_SWAP, EXPAND, CONTRACT`. -/
inductive ReconfigOp where
  | nodeSwap
  | expand
  | contract
deriving DecidableEq

/-- TLA+ reconfiguration phases `PREPARE, COMMIT`. -/
inductive ReconfigPhase where
  | prepare
  | commit
deriving DecidableEq

/-- TLA+ return codes `OK, INVALID_EPOCH`. -/
inductive RetCode where
  | ok
  | invalidEpoch
deriving DecidableEq

/-- TLA+ `LogEntry == [entry_id: EntryId, value: Values]`.  The value is an
`Option` so that the sentinel `NoLogEntry` (whose value is `NIL`) is
representable; every entry written by a client carries `some v`. -/
structure LogEntry (NV : ℕ) where
  entry_id : EntryId
  value : Option (Fin NV)
deriving DecidableEq

/-- TLA+ `NoLogEntry`. -/
def NoLogEntry (NV : ℕ) : LogEntry NV := ⟨NoEntryId, none⟩

/-- Encoding of an optional value as a natural number, for the fixed linear
order on log entries. -/
def valKey {NV : ℕ} (v : Option (Fin NV)) : ℕ :=
  match v with
  | none => 0
  | some v => (v : ℕ) + 1

/-- Key for a fixed linear order on log entries (entry id first, then value),
used to determinize the TLA+ `CHOOSE` over sets of entries. -/
def logEntryKey {NV : ℕ} (e : LogEntry NV) : Lex (Lex (ℕ × ℕ) × ℕ) :=
  toLex (eidKey e.entry_id, valKey e.value)

theorem valKey_injective {NV : ℕ} : Function.Injective (@valKey NV) := by
  intro a b h
  cases a <;> cases b <;> simp only [valKey] at h
  · rfl
  · exact absurd h (by omega)
  · exact absurd h (by omega)
  · exact congrArg some (Fin.ext (by omega))

theorem logEntryKey_injective {NV : ℕ} : Function.Injective (@logEntryKey NV) := by
  intro a b h
  have h' := toLex.injective h
  rw [Prod.mk.injEq] at h'
  cases a; cases b
  simp only [LogEntry.mk.injEq]
  exact ⟨eidKey_injective h'.1, valKey_injective h'.2⟩

instance {NV : ℕ} : LinearOrder (LogEntry NV) :=
  LinearOrder.lift' logEntryKey logEntryKey_injective

/-- TLA+ `Cursor == [status, last_pushed, last_confirmed]`. -/
structure Cursor where
  status : CursorStatus
  last_pushed : EntryId
  last_confirmed : EntryId
deriving DecidableEq

/-- TLA+ `NoCursor`. -/
def NoCursor : Cursor := ⟨.nil, NoEntryId, NoEntryId⟩

/-- TLA+ `ReconfigMetadata` (union of the three per-op record shapes; fields
absent from a shape are `none`). -/
structure ReconfigMeta (NN : ℕ) where
  phase : ReconfigPhase
  op : ReconfigOp
  epoch : ℕ
  rep_factor : ℕ
  old_node : Option (Fin NN)
  new_node : Option (Fin NN)
  new_node_head_index : Option EntryId
deriving DecidableEq

/-- TLA+ `Metadata`. -/
structure Metadata (NN : ℕ) where
  shard_status : ShardStatus
  epoch : ℕ
  ensemble : Finset (Fin NN)
  rep_factor : ℕ
  leader : Option (Fin NN)
  reconfig : Option (ReconfigMeta NN)
deriving DecidableEq

/-- TLA+ `NodeState`. -/
structure NodeState (NN NV : ℕ) where
  id : Fin NN
  status : NodeStatus
  epoch : ℕ
  leader : Option (Fin NN)
  rep_factor : ℕ
  log : Finset (LogEntry NV)
  commit_index : EntryId
  head_index : EntryId
  follow_cursor : Fin NN → Cursor
  reconfig_inprog : Bool

instance {NN NV : ℕ} : DecidableEq (NodeState NN NV) := fun a b =>
  decidable_of_iff
    (a.id = b.id ∧ a.status = b.status ∧ a.epoch = b.epoch ∧ a.leader = b.leader ∧
      a.rep_factor = b.rep_factor ∧ a.log = b.log ∧ a.commit_index = b.commit_index ∧
      a.head_index = b.head_index ∧ a.follow_cursor = b.follow_cursor ∧
      a.reconfig_inprog = b.reconfig_inprog)
    (by cases a; cases b; simp)

/-- TLA+ `FenceResponse` message payload (also stored by the operator in
`election_fence_responses`). -/
structure FenceResp (NN NO : ℕ) where
  node : Fin NN
  operator : Fin NO
  head_index : EntryId
  epoch : ℕ
deriving DecidableEq

/-- TLA+ `OperatorState`. -/
structure OperatorState (NN NO : ℕ) where
  id : Fin NO
  status : OperatorStatus
  md_version : ℕ
  md : Option (Metadata NN)
  election_phase : ElectionPhase
  election_fencing_ensemble : Finset (Fin NN)
  election_final_ensemble : Finset (Fin NN)
  election_leader : Option (Fin NN)
  election_fence_responses : Finset (FenceResp NN NO)
deriving DecidableEq

/-- Snapshot payload of a `PrepareReconfigResponse` for `NODE_SWAP`/`EXPAND`
(the `CONTRACT` response has no payload). -/
structure SnapPayload (NV : ℕ) where
  snapshot : Finset (LogEntry NV)
  head_index : EntryId
  commit_index : EntryId
deriving DecidableEq

/-- TLA+ `Message`: the closed union of all wire message shapes.  Fields that
exist only for some ops of a shape are `Option`s, set exactly at the
construction sites the model uses. -/
inductive Msg (NN NO NV : ℕ) where
  | fenceRequest (node : Fin NN) (operator : Fin NO) (epoch : ℕ)
  | fenceResponse (resp : FenceResp NN NO)
  | becomeLeaderRequest (node : Fin NN) (operator : Fin NO) (epoch : ℕ) (rep_factor : ℕ)
      (follower_map : Fin NN → Option EntryId)
  | becomeLeaderResponse (node : Fin NN) (operator : Fin NO) (epoch : ℕ)
  | addFollowerRequest (node : Fin NN) (follower : Fin NN) (head_index : EntryId) (epoch : ℕ)
  | truncateRequest (dest_node source_node : Fin NN) (epoch : ℕ) (head_index : EntryId)
  | truncateResponse (dest_node source_node : Fin NN) (epoch : ℕ) (head_index : EntryId)
  | addEntryRequest (dest_node source_node : Fin NN) (entry : LogEntry NV)
      (commit_index : EntryId) (epoch : ℕ)
  | addEntryResponse (dest_node source_node : Fin NN) (code : RetCode) (entry_id : EntryId)
      (epoch : ℕ)
  | prepareReconfigRequest (op : ReconfigOp) (epoch : ℕ) (node : Fin NN) (operator : Fin NO)
      (old_node : Option (Fin NN))
  | prepareReconfigResponse (op : ReconfigOp) (epoch : ℕ) (node : Fin NN) (operator : Fin NO)
      (payload : Option (SnapPayload NV))
  | snapshotRequest (node : Fin NN) (operator : Fin NO) (epoch : ℕ)
      (snapshot : Finset (LogEntry NV)) (head_index commit_index : EntryId)
  | snapshotResponse (node : Fin NN) (operator : Fin NO) (epoch : ℕ) (head_index : EntryId)
  | commitReconfigRequest (op : ReconfigOp) (node : Fin NN) (operator : Fin NO) (epoch : ℕ)
      (rep_factor : ℕ) (old_node new_node : Option (Fin NN)) (head_index : Option EntryId)
  | commitReconfigResponse (op : ReconfigOp) (node : Fin NN) (operator : Fin NO) (epoch : ℕ)
      (old_node new_node : Option (Fin NN))
deriving DecidableEq

/-- The global state: the TLA+ VARIABLES.  The message fabric (`messages` of
the missing `MessagePassing` module) is modelled from the spec as a multiset
of pending messages: sending adds a message, processing removes it, and a
message can be received whenever it is pending. -/
structure Sys (NN NO NV : ℕ) where
  metadata_version : ℕ
  metadata : Metadata NN
  node_state : Fin NN → NodeState NN NV
  operator_state : Fin NO → OperatorState NN NO
  confirmed : Fin NV → Option Bool
  msgs : Multiset (Msg NN NO NV)
  operator_stop_ctr : ℕ

instance {NN NO NV : ℕ} : DecidableEq (Sys NN NO NV) := fun a b =>
  decidable_of_iff
    (a.metadata_version = b.metadata_version ∧ a.metadata = b.metadata ∧
      a.node_state = b.node_state ∧ a.operator_state = b.operator_state ∧
      a.confirmed = b.confirmed ∧ a.msgs = b.msgs ∧
      a.operator_stop_ctr = b.operator_stop_ctr)
    (by cases a; cases b; simp)

/-- The numeric TLA+ CONSTANTS. -/
structure ProtoConsts where
  RepFactor : ℕ
  MaxEpochs : ℕ
  MaxOperatorStops : ℕ

/-! ### Helper operators (TLA+ helpers) -/

/-- TLA+ `IsQuorum(nodes, ensemble)`: the count is a majority of the
ensemble's size. -/
def IsQuorum {α β : Type} (nodes : Finset α) (ensemble : Finset β) : Prop :=
  nodes.card ≥ ensemble.card / 2 + 1

instance {α β : Type} (nodes : Finset α) (ensemble : Finset β) :
    Decidable (IsQuorum nodes ensemble) := by unfold IsQuorum; infer_instance

/-- Greatest entry id of a log, `NoEntryId` when empty: the entry id of the
TLA+ `HeadEntry(log)` (the model only ever uses the id of the head entry). -/
def HeadEntryId {NV : ℕ} (log : Finset (LogEntry NV)) : EntryId :=
  Option.getD (log.image (fun e => e.entry_id)).max NoEntryId

/-- The least pending log entry of a finset, determinizing TLA+ `CHOOSE`
(`none` when no candidate exists). -/
def finsetMinEntry {NV : ℕ} (s : Finset (LogEntry NV)) : Option (LogEntry NV) := s.min

section Protocol

variable {NN NO NV : ℕ}

/-! ### Election helpers -/

/-- TLA+ `FencingEnsemble`: include the new node of an in-progress
reconfiguration that is in the commit phase for `NODE_SWAP` or `EXPAND`. -/
def FencingEnsemble (md : Metadata NN) : Finset (Fin NN) :=
  match md.reconfig with
  | some rc =>
    if rc.phase = .commit ∧ (rc.op = .nodeSwap ∨ rc.op = .expand)
    then md.ensemble ∪ rc.new_node.toFinset
    else md.ensemble
  | none => md.ensemble

/-- TLA+ `GetFenceRequests(o, new_epoch, ensemble)`. -/
def GetFenceRequests (o : Fin NO) (new_epoch : ℕ) (ensemble : Finset (Fin NN)) :
    Finset (Msg NN NO NV) :=
  ensemble.image (fun n => .fenceRequest n o new_epoch)

/-- TLA+ `GetFenceResponse(nstate, new_epoch, o)` (built from the node state
before it fences itself). -/
def GetFenceResponse (nstate : NodeState NN NV) (new_epoch : ℕ) (o : Fin NO) : Msg NN NO NV :=
  .fenceResponse ⟨nstate.id, o, nstate.head_index, new_epoch⟩

/-- TLA+ `FinalElectionEnsemble` (the `responses` argument of the source is
unused there): apply the preserved commit-phase reconfiguration's ensemble
change, if any. -/
def FinalElectionEnsemble (md : Metadata NN) : Finset (Fin NN) :=
  match md.reconfig with
  | some rc =>
    if rc.phase = .commit ∧ (rc.op = .nodeSwap ∨ rc.op = .expand)
    then
      if rc.op = .nodeSwap
      then (md.ensemble \ rc.old_node.toFinset) ∪ rc.new_node.toFinset
      else md.ensemble ∪ rc.new_node.toFinset
    else md.ensemble
  | none => md.ensemble

/-- Head index reported by follower `f` among the stored fence responses:
TLA+ `FollowerResponse(responses, f).head_index`, whose `CHOOSE` is
determinized by the least head index (each node responds at most once per
election, so the choice is unique in reachable states). -/
def FollowerResponseHead (responses : Finset (FenceResp NN NO)) (f : Fin NN) : Option EntryId :=
  (((responses.filter (fun r => r.node = f)).image (fun r => r.head_index)).min : Option EntryId)

/-- TLA+ `GetFollowerMap(ostate, leader, responses, final_ensemble)` (the
`ostate` argument of the source is unused there). -/
def GetFollowerMap (leader : Fin NN) (responses : Finset (FenceResp NN NO))
    (final_ensemble : Finset (Fin NN)) : Fin NN → Option EntryId :=
  fun f =>
    if f ∈ final_ensemble ∧ f ≠ leader ∧ ∃ r ∈ responses, r.node = f
    then FollowerResponseHead responses f
    else none

/-- TLA+ `WinnerResponse(responses, final_ensemble)`, returning the chosen
node: a responder in the final ensemble none of whose peers in the final
ensemble reported a higher head index.  The source's `CHOOSE` is determinized
by breaking ties on the greatest head index by least node id. -/
def WinnerNode (responses : Finset (FenceResp NN NO)) (final_ensemble : Finset (Fin NN)) :
    Option (Fin NN) :=
  let cands := responses.filter (fun r => r.node ∈ final_ensemble)
  match ((cands.image (fun r => r.head_index)).max : Option EntryId) with
  | none => none
  | some mh => (((cands.filter (fun r => r.head_index = mh)).image (fun r => r.node)).min :
      Option (Fin NN))

/-! ### Leader/cursor helpers -/

/-- The entry id of TLA+ `GetHighestEntryOfEpoch(nstate, target_epoch)`: the
greatest entry id in the log whose epoch is at most `target_epoch`, the id of
`NoLogEntry` when no such entry exists (the model only uses the id of the
chosen entry). -/
def GetHighestEntryIdOfEpoch (nstate : NodeState NN NV) (target_epoch : ℕ) : EntryId :=
  Option.getD
    (((nstate.log.filter (fun e => e.entry_id.epoch ≤ target_epoch)).image
      (fun e => e.entry_id)).max)
    NoEntryId

/-- TLA+ `NeedsTruncation(nstate, head_index)`. -/
def NeedsTruncation (nstate : NodeState NN NV) (head_index : EntryId) : Prop :=
  (head_index.epoch = nstate.head_index.epoch ∧ head_index.offset > nstate.head_index.offset) ∨
    head_index.epoch ≠ nstate.head_index.epoch

instance (nstate : NodeState NN NV) (head_index : EntryId) :
    Decidable (NeedsTruncation nstate head_index) := by
  unfold NeedsTruncation; infer_instance

/-- TLA+ `GetCursor(nstate, head_index)`. -/
def GetCursor (nstate : NodeState NN NV) (head_index : EntryId) : Cursor :=
  if NeedsTruncation nstate head_index
  then ⟨.pendingTruncate, NoEntryId, NoEntryId⟩
  else ⟨.attached, head_index, head_index⟩

/-- TLA+ `GetCursors(nstate, follower_map)`. -/
def GetCursors (nstate : NodeState NN NV) (follower_map : Fin NN → Option EntryId) :
    Fin NN → Cursor :=
  fun n =>
    match follower_map n with
    | some h => GetCursor nstate h
    | none => NoCursor

/-- TLA+ `GetTruncateRequest(nstate, follower, target_epoch)`. -/
def GetTruncateRequest (nstate : NodeState NN NV) (follower : Fin NN) (target_epoch : ℕ) :
    Msg NN NO NV :=
  .truncateRequest follower nstate.id nstate.epoch (GetHighestEntryIdOfEpoch nstate target_epoch)

/-- TLA+ `FollowersToTruncate(nstate, follower_map)`. -/
def FollowersToTruncate (nstate : NodeState NN NV) (follower_map : Fin NN → Option EntryId) :
    Finset (Fin NN) :=
  Finset.univ.filter (fun f =>
    (follower_map f).isSome ∧ NeedsTruncation nstate ((follower_map f).getD NoEntryId))

/-- TLA+ `GetTruncateRequests(nstate, follower_map)`. -/
def GetTruncateRequests (nstate : NodeState NN NV) (follower_map : Fin NN → Option EntryId) :
    Finset (Msg NN NO NV) :=
  (FollowersToTruncate nstate follower_map).image
    (fun f => GetTruncateRequest nstate f ((follower_map f).getD NoEntryId).epoch)

/-- TLA+ `TruncateLog(log, last_safe_entry_id)`. -/
def TruncateLog (log : Finset (LogEntry NV)) (last_safe_entry_id : EntryId) :
    Finset (LogEntry NV) :=
  log.filter (fun entry => IsLowerOrEqualId entry.entry_id last_safe_entry_id)

/-! ### Replication helpers -/

/-- TLA+ `CanSendToFollower(lstate, follower)` (reads the follower's status
from the global node state). -/
def CanSendToFollower (s : Sys NN NO NV) (lstate : NodeState NN NV) (follower : Fin NN) : Prop :=
  (s.node_state follower).status ≠ .notMember ∧
  follower ≠ lstate.id ∧
  (lstate.follow_cursor follower).status = .attached ∧
  IsHigherId lstate.head_index (lstate.follow_cursor follower).last_pushed

instance (s : Sys NN NO NV) (lstate : NodeState NN NV) (follower : Fin NN) :
    Decidable (CanSendToFollower s lstate follower) := by
  unfold CanSendToFollower; infer_instance

/-- TLA+ `IncludesAllSendableFollowers(lstate, followers)`. -/
def IncludesAllSendableFollowers (s : Sys NN NO NV) (lstate : NodeState NN NV)
    (followers : Finset (Fin NN)) : Prop :=
  (∀ f ∈ followers, CanSendToFollower s lstate f) ∧
  ¬∃ f : Fin NN, f ≠ lstate.id ∧ f ∉ followers ∧ CanSendToFollower s lstate f

instance (s : Sys NN NO NV) (lstate : NodeState NN NV) (followers : Finset (Fin NN)) :
    Decidable (IncludesAllSendableFollowers s lstate followers) := by
  unfold IncludesAllSendableFollowers; infer_instance

/-- TLA+ `NextEntry(lstate, last_entry_id)`: the lowest log entry above the
given id (unique when it exists, as the source notes; `CHOOSE` determinized by
the least entry, `NoLogEntry` when the log holds nothing above the id — the
model only applies it to cursors strictly behind the head). -/
def NextEntry (lstate : NodeState NN NV) (last_entry_id : EntryId) : LogEntry NV :=
  Option.getD
    (finsetMinEntry (lstate.log.filter (fun e => IsHigherId e.entry_id last_entry_id)))
    (NoLogEntry NV)

/-- TLA+ `GetAddEntryRequest(lstate, next_entries, follower)`. -/
def GetAddEntryRequest (lstate : NodeState NN NV) (entry : LogEntry NV) (follower : Fin NN) :
    Msg NN NO NV :=
  .addEntryRequest follower lstate.id entry lstate.commit_index lstate.epoch

/-- TLA+ `GetNextAddEntryRequests(lstate, next_entries, followers)` with
`next_entries = GetNextEntries(lstate, followers)` inlined. -/
def GetNextAddEntryRequests (lstate : NodeState NN NV) (followers : Finset (Fin NN)) :
    Finset (Msg NN NO NV) :=
  followers.image
    (fun f => GetAddEntryRequest lstate (NextEntry lstate (lstate.follow_cursor f).last_pushed) f)

/-- TLA+ `GetAddEntryOkResponse(msg, fstate, entry)`: note the response epoch
is the follower's epoch before it adopts the request epoch. -/
def GetAddEntryOkResponse (fstate : NodeState NN NV) (source_node : Fin NN)
    (entry : LogEntry NV) : Msg NN NO NV :=
  .addEntryResponse source_node fstate.id .ok entry.entry_id fstate.epoch

/-- TLA+ `GetAddEntryInvalidEpochResponse(nstate, msg)`: the response carries
the request's epoch. -/
def GetAddEntryInvalidEpochResponse (nstate : NodeState NN NV) (source_node : Fin NN)
    (entry : LogEntry NV) (msg_epoch : ℕ) : Msg NN NO NV :=
  .addEntryResponse source_node nstate.id .invalidEpoch entry.entry_id msg_epoch

/-! ### Commit helpers -/

/-- TLA+ `GetEntry(entry_id, nstate)`: the log entry with the given id
(`CHOOSE` determinized by the least such entry; `none` when absent, where the
source's `CHOOSE` is unspecified). -/
def GetEntry (entry_id : EntryId) (nstate : NodeState NN NV) : Option (LogEntry NV) :=
  finsetMinEntry (nstate.log.filter (fun e => CompareLogEntries e.entry_id entry_id = 0))

/-- TLA+ `EntryReachedQuorum(entry_id, follow_cursor, rep_factor)`: the count
of attached cursors confirmed at or above the id reaches `rep_factor ÷ 2`
(the leader itself is the implicit `+ 1`). -/
def EntryReachedQuorum (entry_id : EntryId) (follow_cursor : Fin NN → Cursor)
    (rep_factor : ℕ) : Prop :=
  (Finset.univ.filter (fun n : Fin NN =>
    (follow_cursor n).status = .attached ∧
    IsLowerOrEqualId entry_id (follow_cursor n).last_confirmed)).card ≥ rep_factor / 2

instance (entry_id : EntryId) (follow_cursor : Fin NN → Cursor) (rep_factor : ℕ) :
    Decidable (EntryReachedQuorum entry_id follow_cursor rep_factor) := by
  unfold EntryReachedQuorum; infer_instance

/-- TLA+ `LogPrefixAtQuorum(nstate, entry_id, follow_cursor, rep_factor)`. -/
def LogPrefixAtQuorum (nstate : NodeState NN NV) (entry_id : EntryId)
    (follow_cursor : Fin NN → Cursor) (rep_factor : ℕ) : Prop :=
  ∀ entry ∈ nstate.log,
    IsHigherId entry.entry_id entry_id ∨
    (IsLowerOrEqualId entry.entry_id entry_id ∧
      EntryReachedQuorum entry.entry_id follow_cursor rep_factor)

instance (nstate : NodeState NN NV) (entry_id : EntryId) (follow_cursor : Fin NN → Cursor)
    (rep_factor : ℕ) : Decidable (LogPrefixAtQuorum nstate entry_id follow_cursor rep_factor) := by
  unfold LogPrefixAtQuorum; infer_instance

/-- TLA+ `EntryIsCommitted(nstate, entry_id, cursor, rep_factor)`: the whole
log prefix up to the id is at quorum and the entry is of the current epoch. -/
def EntryIsCommitted (nstate : NodeState NN NV) (entry_id : EntryId)
    (cursor : Fin NN → Cursor) (rep_factor : ℕ) : Prop :=
  LogPrefixAtQuorum nstate entry_id cursor rep_factor ∧ entry_id.epoch = nstate.epoch

instance (nstate : NodeState NN NV) (entry_id : EntryId) (cursor : Fin NN → Cursor)
    (rep_factor : ℕ) : Decidable (EntryIsCommitted nstate entry_id cursor rep_factor) := by
  unfold EntryIsCommitted; infer_instance

/-- TLA+ `NewCommitIndex(nstate, updated_cursor, rep_factor)`: the greatest
committed entry id of the log, `NoEntryId` when no entry is committed. -/
def NewCommitIndex (nstate : NodeState NN NV) (updated_cursor : Fin NN → Cursor)
    (rep_factor : ℕ) : EntryId :=
  Option.getD
    (((nstate.log.filter (fun e => EntryIsCommitted nstate e.entry_id updated_cursor rep_factor)).image
      (fun e => e.entry_id)).max)
    NoEntryId

/-- TLA+ `UpdateConfirmed(nstate, commit_index)`: mark as confirmed every
written value whose entry lies at or below the commit index. -/
def UpdateConfirmed (confirmed : Fin NV → Option Bool) (nstate : NodeState NN NV)
    (commit_index : EntryId) : Fin NV → Option Bool :=
  fun v =>
    match confirmed v with
    | none => none
    | some b =>
      if b then some true
      else
        if ∃ entry ∈ nstate.log, IsLowerOrEqualId entry.entry_id commit_index ∧
            entry.value = some v
        then some true
        else some false

/-! ### Message fabric (spec-modelled)

Modelled from the spec: the `MessagePassing` module is not among the given
sources.  Messages are pending until processed; the spec requires add-entry
streams between a fixed (sender, receiver) pair to be delivered in offset
order, so `IsEarliestReceivableEntryMessage` admits a pending add-entry
message only when no other pending add-entry message of the same kind between
the same pair carries a lower entry id, and an operator crash loses the
messages addressed to or sent by that operator. -/

/-- Does an operator-carrying message belong to operator `o`?  (Modelled from
the spec, for `OperatorMessagesLost`.) -/
def msgOperator : Msg NN NO NV → Option (Fin NO)
  | .fenceRequest _ o _ => some o
  | .fenceResponse r => some r.operator
  | .becomeLeaderRequest _ o _ _ _ => some o
  | .becomeLeaderResponse _ o _ => some o
  | .addFollowerRequest _ _ _ _ => none
  | .truncateRequest _ _ _ _ => none
  | .truncateResponse _ _ _ _ => none
  | .addEntryRequest _ _ _ _ _ => none
  | .addEntryResponse _ _ _ _ _ => none
  | .prepareReconfigRequest _ _ _ o _ => some o
  | .prepareReconfigResponse _ _ _ o _ => some o
  | .snapshotRequest _ o _ _ _ _ => some o
  | .snapshotResponse _ o _ _ => some o
  | .commitReconfigRequest _ _ o _ _ _ _ _ => some o
  | .commitReconfigResponse _ _ o _ _ _ => some o

/-- Modelled from the spec: `OperatorMessagesLost(o)` drops every pending
message carrying operator `o`. -/
def OperatorMessagesLost (o : Fin NO) (msgs : Multiset (Msg NN NO NV)) :
    Multiset (Msg NN NO NV) :=
  msgs.filter (fun m => msgOperator m ≠ some o)

/-- Is `m` a pending add-entry request between the same pair with an entry id
lower than `eid`? -/
def entryReqBefore (dest_node source_node : Fin NN) (eid : EntryId) (m : Msg NN NO NV) : Prop :=
  match m with
  | .addEntryRequest d sr e _ _ => d = dest_node ∧ sr = source_node ∧ IsLowerId e.entry_id eid
  | _ => False

instance (dest_node source_node : Fin NN) (eid : EntryId) (m : Msg NN NO NV) :
    Decidable (entryReqBefore dest_node source_node eid m) := by
  unfold entryReqBefore
  cases m <;> exact inferInstance

/-- Is `m` a pending add-entry response between the same pair with an entry id
lower than `eid`? -/
def entryRespBefore (dest_node source_node : Fin NN) (eid : EntryId) (m : Msg NN NO NV) : Prop :=
  match m with
  | .addEntryResponse d sr _ e _ => d = dest_node ∧ sr = source_node ∧ IsLowerId e eid
  | _ => False

instance (dest_node source_node : Fin NN) (eid : EntryId) (m : Msg NN NO NV) :
    Decidable (entryRespBefore dest_node source_node eid m) := by
  unfold entryRespBefore
  cases m <;> exact inferInstance

/-- Modelled from the spec: `IsEarliestReceivableEntryMessage` for
`ADD_ENTRY_REQUEST` (per-pair delivery in entry id order). -/
def EarliestAddEntryRequest (msgs : Multiset (Msg NN NO NV)) (dest_node source_node : Fin NN)
    (entry : LogEntry NV) (commit_index : EntryId) (epoch : ℕ) : Prop :=
  Msg.addEntryRequest dest_node source_node entry commit_index epoch ∈ msgs ∧
  ∀ m ∈ msgs, ¬entryReqBefore dest_node source_node entry.entry_id m

/-- Modelled from the spec: `IsEarliestReceivableEntryMessage` for
`ADD_ENTRY_RESPONSE` (per-pair delivery in entry id order). -/
def EarliestAddEntryResponse (msgs : Multiset (Msg NN NO NV)) (dest_node source_node : Fin NN)
    (code : RetCode) (entry_id : EntryId) (epoch : ℕ) : Prop :=
  Msg.addEntryResponse dest_node source_node code entry_id epoch ∈ msgs ∧
  ∀ m ∈ msgs, ¬entryRespBefore dest_node source_node entry_id m

instance (msgs : Multiset (Msg NN NO NV)) (dn sn : Fin NN) (e : LogEntry NV)
    (ci : EntryId) (ep : ℕ) : Decidable (EarliestAddEntryRequest msgs dn sn e ci ep) :=
  decidable_of_iff
    (Msg.addEntryRequest dn sn e ci ep ∈ msgs ∧
      ∀ m ∈ msgs, ¬entryReqBefore dn sn e.entry_id m) Iff.rfl

instance (msgs : Multiset (Msg NN NO NV)) (dn sn : Fin NN) (code : RetCode)
    (eid : EntryId) (ep : ℕ) : Decidable (EarliestAddEntryResponse msgs dn sn code eid ep) :=
  decidable_of_iff
    (Msg.addEntryResponse dn sn code eid ep ∈ msgs ∧
      ∀ m ∈ msgs, ¬entryRespBefore dn sn eid m) Iff.rfl

end Protocol

section Actions

variable {NN NO NV : ℕ}

/-! ### Actions (one definition per TLA+ action; the enabling conditions come
first, then the state change as an equation on the post-state) -/

/-- TLA+ `OperatorStarts`: an operator starts and loads the metadata. -/
def OperatorStarts (s s' : Sys NN NO NV) : Prop :=
  ∃ o : Fin NO,
    (s.operator_state o).status = .notRunning ∧
    s' = { s with
           operator_state := Function.update s.operator_state o
             ⟨o, .running, s.metadata_version, some s.metadata, .nil, ∅, ∅, none, ∅⟩ }

/-- TLA+ `OperatorStops`: a running operator crashes, losing all local state
and its pending messages. -/
def OperatorStops (C : ProtoConsts) (s s' : Sys NN NO NV) : Prop :=
  s.operator_stop_ctr < C.MaxOperatorStops ∧
  ∃ o : Fin NO,
    (s.operator_state o).status = .running ∧
    s' = { s with
           operator_state := Function.update s.operator_state o
             { s.operator_state o with
               status := .notRunning, md_version := 0, md := none,
               election_phase := .nil, election_fencing_ensemble := ∅,
               election_final_ensemble := ∅, election_leader := none,
               election_fence_responses := ∅ },
           operator_stop_ctr := s.operator_stop_ctr + 1,
           msgs := OperatorMessagesLost o s.msgs }

/-- TLA+ `OperatorStartsElection`: bump the epoch, record the election in the
metadata (preserving a commit-phase reconfiguration), and send fence requests.
Note that the source sends the fence requests to `ostate.md.ensemble`, not to
the fencing ensemble the quorum is counted against. -/
def OperatorStartsElection (C : ProtoConsts) (s s' : Sys NN NO NV) : Prop :=
  ∃ (o : Fin NO) (md0 : Metadata NN),
    let ostate := s.operator_state o
    let fencing_ensemble := FencingEnsemble s.metadata
    s.metadata.epoch < C.MaxEpochs ∧
    ostate.status = .running ∧
    ostate.md_version = s.metadata_version ∧
    ostate.md = some md0 ∧
    (∃ visible_nodes : Finset (Fin NN),
      visible_nodes ⊆ fencing_ensemble ∧ IsQuorum visible_nodes fencing_ensemble) ∧
    (let new_epoch := md0.epoch + 1
     let new_metadata := { s.metadata with
                           epoch := new_epoch, shard_status := .election, leader := none,
                           reconfig := match s.metadata.reconfig with
                             | some rc => if rc.phase = .commit then some rc else none
                             | none => none }
     s' = { s with
            metadata_version := s.metadata_version + 1,
            metadata := new_metadata,
            operator_state := Function.update s.operator_state o
              { ostate with
                id := o, md_version := s.metadata_version + 1,
                md := some new_metadata, election_phase := .fencing,
                election_fencing_ensemble := fencing_ensemble,
                election_final_ensemble := ∅, election_leader := none,
                election_fence_responses := ∅ },
            msgs := s.msgs + (GetFenceRequests o new_epoch md0.ensemble).val })

/-- TLA+ `NodeHandlesFencingRequest`: fence, destroy cursors and reconfig
state, respond with the head index. -/
def NodeHandlesFencingRequest (s s' : Sys NN NO NV) : Prop :=
  ∃ (n : Fin NN) (o : Fin NO) (ep : ℕ),
    Msg.fenceRequest n o ep ∈ s.msgs ∧
    (s.node_state n).epoch < ep ∧
    s' = { s with
           node_state := Function.update s.node_state n
             { s.node_state n with
               epoch := ep, status := .fenced, rep_factor := 0,
               follow_cursor := fun _ => NoCursor, reconfig_inprog := false },
           msgs := (s.msgs.erase (.fenceRequest n o ep)) +
             {GetFenceResponse (s.node_state n) ep o} }

/-- TLA+ `OperatorHandlesPreQuorumFencingResponse`: store the response, no
quorum yet. -/
def OperatorHandlesPreQuorumFencingResponse (s s' : Sys NN NO NV) : Prop :=
  ∃ (o : Fin NO) (fr : FenceResp NN NO) (md0 : Metadata NN),
    let ostate := s.operator_state o
    ostate.status = .running ∧
    ostate.md = some md0 ∧
    md0.shard_status = .election ∧
    ostate.election_phase = .fencing ∧
    Msg.fenceResponse fr ∈ s.msgs ∧
    fr.operator = o ∧
    md0.epoch = fr.epoch ∧
    ¬IsQuorum (ostate.election_fence_responses ∪ {fr}) ostate.election_fencing_ensemble ∧
    s' = { s with
           operator_state := Function.update s.operator_state o
             { ostate with
               election_fence_responses := ostate.election_fence_responses ∪ {fr} },
           msgs := s.msgs.erase (.fenceResponse fr) }

/-- TLA+ `OperatorHandlesQuorumFencingResponse`: reach quorum, pick the leader
(greatest head index within the final ensemble) and notify it. -/
def OperatorHandlesQuorumFencingResponse (s s' : Sys NN NO NV) : Prop :=
  ∃ (o : Fin NO) (fr : FenceResp NN NO) (md0 : Metadata NN) (new_leader : Fin NN),
    let ostate := s.operator_state o
    ostate.status = .running ∧
    ostate.md = some md0 ∧
    md0.shard_status = .election ∧
    ostate.election_phase = .fencing ∧
    Msg.fenceResponse fr ∈ s.msgs ∧
    fr.operator = o ∧
    md0.epoch = fr.epoch ∧
    (let fenced_res := ostate.election_fence_responses ∪ {fr}
     let final_ensemble := FinalElectionEnsemble md0
     IsQuorum fenced_res ostate.election_fencing_ensemble ∧
     WinnerNode fenced_res final_ensemble = some new_leader ∧
     s' = { s with
            operator_state := Function.update s.operator_state o
              { ostate with
                election_phase := .notifyLeader,
                election_leader := some new_leader,
                election_final_ensemble := final_ensemble,
                election_fence_responses := fenced_res },
            msgs := (s.msgs.erase (.fenceResponse fr)) +
              {Msg.becomeLeaderRequest new_leader o md0.epoch md0.rep_factor
                (GetFollowerMap new_leader fenced_res final_ensemble)} })

/-- TLA+ `NodeHandlesBecomeLeaderRequest`: become leader, attach or
pending-truncate a cursor per follower of the follower map, send truncate
requests where needed. -/
def NodeHandlesBecomeLeaderRequest (s s' : Sys NN NO NV) : Prop :=
  ∃ (n : Fin NN) (o : Fin NO) (ep rf : ℕ) (fm : Fin NN → Option EntryId),
    Msg.becomeLeaderRequest n o ep rf fm ∈ s.msgs ∧
    (s.node_state n).epoch = ep ∧
    s' = { s with
           node_state := Function.update s.node_state n
             { s.node_state n with
               status := .leader, leader := some n, rep_factor := rf,
               follow_cursor := GetCursors (s.node_state n) fm },
           msgs := (s.msgs.erase (.becomeLeaderRequest n o ep rf fm)) +
             (GetTruncateRequests (s.node_state n) fm).val +
             {Msg.becomeLeaderResponse n o ep} }

/-- TLA+ `OperatorHandlesBecomeLeaderResponse`: complete the election by a
versioned metadata update. -/
def OperatorHandlesBecomeLeaderResponse (s s' : Sys NN NO NV) : Prop :=
  ∃ (o : Fin NO) (n : Fin NN) (ep : ℕ) (md0 : Metadata NN),
    let ostate := s.operator_state o
    ostate.status = .running ∧
    ostate.md = some md0 ∧
    md0.shard_status = .election ∧
    Msg.becomeLeaderResponse n o ep ∈ s.msgs ∧
    ostate.election_phase = .notifyLeader ∧
    md0.epoch = ep ∧
    s.metadata_version = ostate.md_version ∧
    (let new_md := { md0 with
                     shard_status := .steadyState, leader := some n,
                     ensemble := ostate.election_final_ensemble,
                     rep_factor := ostate.election_final_ensemble.card, reconfig := none }
     s' = { s with
            operator_state := Function.update s.operator_state o
              { ostate with
                election_phase := .leaderElected,
                md_version := s.metadata_version + 1, md := some new_md },
            metadata := new_md,
            metadata_version := s.metadata_version + 1,
            msgs := s.msgs.erase (.becomeLeaderResponse n o ep) })

/-- TLA+ `OperatorHandlesPostQuorumFencingResponse`: forward a late fence
response to the elected leader as an add-follower request. -/
def OperatorHandlesPostQuorumFencingResponse (s s' : Sys NN NO NV) : Prop :=
  ∃ (o : Fin NO) (fr : FenceResp NN NO) (md0 : Metadata NN) (el : Fin NN),
    let ostate := s.operator_state o
    ostate.status = .running ∧
    ostate.election_phase = .leaderElected ∧
    Msg.fenceResponse fr ∈ s.msgs ∧
    fr.operator = o ∧
    ostate.md = some md0 ∧
    fr.node ∈ md0.ensemble ∧
    md0.epoch = fr.epoch ∧
    ostate.election_leader = some el ∧
    s' = { s with
           operator_state := Function.update s.operator_state o
             { ostate with
               election_fence_responses := ostate.election_fence_responses ∪ {fr} },
           msgs := (s.msgs.erase (.fenceResponse fr)) +
             {Msg.addFollowerRequest el fr.node fr.head_index md0.epoch} }

/-- TLA+ `LeaderHandlesAddFollowerRequest`: create a cursor for the new
follower, send a truncate request when its log might need truncation. -/
def LeaderHandlesAddFollowerRequest (s s' : Sys NN NO NV) : Prop :=
  ∃ (n f : Fin NN) (hi : EntryId) (ep : ℕ),
    Msg.addFollowerRequest n f hi ep ∈ s.msgs ∧
    (s.node_state n).epoch = ep ∧
    (s.node_state n).status = .leader ∧
    ((s.node_state n).follow_cursor f).status = .nil ∧
    s' = { s with
           node_state := Function.update s.node_state n
             { s.node_state n with
               follow_cursor := Function.update (s.node_state n).follow_cursor f
                 (GetCursor (s.node_state n) hi) },
           msgs := if NeedsTruncation (s.node_state n) hi
             then (s.msgs.erase (.addFollowerRequest n f hi ep)) +
               {GetTruncateRequest (s.node_state n) f hi.epoch}
             else s.msgs.erase (.addFollowerRequest n f hi ep) }

/-- TLA+ `NodeHandlesTruncateRequest`: truncate the log to the indicated
entry, become follower, respond with the new head. -/
def NodeHandlesTruncateRequest (s s' : Sys NN NO NV) : Prop :=
  ∃ (dest_node source_node : Fin NN) (ep : ℕ) (hi : EntryId),
    Msg.truncateRequest dest_node source_node ep hi ∈ s.msgs ∧
    (s.node_state dest_node).status = .fenced ∧
    (s.node_state dest_node).epoch = ep ∧
    (let truncated_log := TruncateLog (s.node_state dest_node).log hi
     let head_id := HeadEntryId truncated_log
     s' = { s with
            node_state := Function.update s.node_state dest_node
              { s.node_state dest_node with
                status := .follower, epoch := ep,
                leader := some source_node, log := truncated_log, head_index := head_id,
                follow_cursor := fun _ => NoCursor },
            msgs := (s.msgs.erase (.truncateRequest dest_node source_node ep hi)) +
              {Msg.truncateResponse source_node dest_node ep head_id} })

/-- TLA+ `LeaderHandlesTruncateResponse`: activate the follower's cursor at
the returned head index. -/
def LeaderHandlesTruncateResponse (s s' : Sys NN NO NV) : Prop :=
  ∃ (dest_node source_node : Fin NN) (ep : ℕ) (hi : EntryId),
    Msg.truncateResponse dest_node source_node ep hi ∈ s.msgs ∧
    (s.node_state dest_node).status = .leader ∧
    (s.node_state dest_node).epoch = ep ∧
    s' = { s with
           node_state := Function.update s.node_state dest_node
             { s.node_state dest_node with
               follow_cursor := Function.update (s.node_state dest_node).follow_cursor
                 source_node ⟨.attached, hi, hi⟩ },
           msgs := s.msgs.erase (.truncateResponse dest_node source_node ep hi) }

/-- TLA+ `Write`: a client writes a fresh value to a leader, which appends it
at the next offset of its current epoch. -/
def Write (s s' : Sys NN NO NV) : Prop :=
  ∃ (n : Fin NN) (v : Fin NV),
    (s.node_state n).status = .leader ∧
    s.confirmed v = none ∧
    (let nstate := s.node_state n
     let entry_id : EntryId := ⟨nstate.head_index.offset + 1, nstate.epoch⟩
     s' = { s with
            node_state := Function.update s.node_state n
              { nstate with
                log := insert ⟨entry_id, some v⟩ nstate.log, head_index := entry_id },
            confirmed := Function.update s.confirmed v (some false) })

/-- TLA+ `LeaderSendsEntriesToFollowers`: send the next entry to every
follower whose attached cursor is behind the head, advancing `last_pushed` at
send time. -/
def LeaderSendsEntriesToFollowers (s s' : Sys NN NO NV) : Prop :=
  ∃ (leader : Fin NN) (followers : Finset (Fin NN)),
    followers ≠ ∅ ∧
    (s.node_state leader).status = .leader ∧
    IncludesAllSendableFollowers s (s.node_state leader) followers ∧
    (let lstate := s.node_state leader
     s' = { s with
            node_state := Function.update s.node_state leader
              { lstate with
                follow_cursor := fun n =>
                  if n ∈ followers
                  then { lstate.follow_cursor n with
                         last_pushed :=
                           (NextEntry lstate (lstate.follow_cursor n).last_pushed).entry_id }
                  else lstate.follow_cursor n },
            msgs := s.msgs + (GetNextAddEntryRequests lstate followers).val })

/-- TLA+ `FollowerConfirmsEntry`: a follower (or fenced node) with epoch at
most the request's adds the entry, adopts the request epoch, head index and
commit index, and confirms. -/
def FollowerConfirmsEntry (s s' : Sys NN NO NV) : Prop :=
  ∃ (dest_node source_node : Fin NN) (entry : LogEntry NV) (ci : EntryId) (ep : ℕ),
    EarliestAddEntryRequest s.msgs dest_node source_node entry ci ep ∧
    ((s.node_state dest_node).status = .follower ∨ (s.node_state dest_node).status = .fenced) ∧
    (s.node_state dest_node).epoch ≤ ep ∧
    (let fstate := s.node_state dest_node
     s' = { s with
            node_state := Function.update s.node_state dest_node
              { fstate with
                status := .follower, epoch := ep, leader := some source_node,
                log := insert entry fstate.log, head_index := entry.entry_id,
                commit_index := ci },
            msgs := (s.msgs.erase (.addEntryRequest dest_node source_node entry ci ep)) +
              {GetAddEntryOkResponse fstate source_node entry} })

/-- TLA+ `FollowerRejectsEntry`: a node with a higher epoch rejects the entry
with `INVALID_EPOCH`, carrying the request's epoch. -/
def FollowerRejectsEntry (s s' : Sys NN NO NV) : Prop :=
  ∃ (dest_node source_node : Fin NN) (entry : LogEntry NV) (ci : EntryId) (ep : ℕ),
    EarliestAddEntryRequest s.msgs dest_node source_node entry ci ep ∧
    (s.node_state dest_node).epoch > ep ∧
    s' = { s with
           msgs := (s.msgs.erase (.addEntryRequest dest_node source_node entry ci ep)) +
             {GetAddEntryInvalidEpochResponse (s.node_state dest_node) source_node entry ep} }

/-- TLA+ `LeaderHandlesEntryConfirm`: update the cursor's `last_confirmed`;
when the entry is now committed (its whole prefix at quorum and its epoch
current), advance the commit index and confirm the value to the client. -/
def LeaderHandlesEntryConfirm (s s' : Sys NN NO NV) : Prop :=
  ∃ (dest_node source_node : Fin NN) (eid : EntryId) (ep : ℕ),
    EarliestAddEntryResponse s.msgs dest_node source_node .ok eid ep ∧
    (s.node_state dest_node).status = .leader ∧
    (s.node_state dest_node).epoch = ep ∧
    ((s.node_state dest_node).follow_cursor source_node).status = .attached ∧
    (let nstate := s.node_state dest_node
     let updated_cursor := Function.update nstate.follow_cursor source_node
        { nstate.follow_cursor source_node with last_confirmed := eid }
     let base_msgs := s.msgs.erase (.addEntryResponse dest_node source_node .ok eid ep)
     if EntryIsCommitted nstate eid updated_cursor nstate.rep_factor then
       s' = { s with
              node_state := Function.update s.node_state dest_node
                { nstate with
                  follow_cursor := updated_cursor,
                  commit_index := if IsHigherId eid nstate.commit_index then eid
                    else nstate.commit_index },
              confirmed := match GetEntry eid nstate with
                | some e =>
                  match e.value with
                  | some v => Function.update s.confirmed v (some true)
                  | none => s.confirmed
                | none => s.confirmed,
              msgs := base_msgs }
     else
       s' = { s with
              node_state := Function.update s.node_state dest_node
                { nstate with follow_cursor := updated_cursor },
              msgs := base_msgs })

/-- TLA+ `LeaderHandlesEntryRejection`: on `INVALID_EPOCH` the leader
abdicates, fencing itself and clearing its cursors. -/
def LeaderHandlesEntryRejection (s s' : Sys NN NO NV) : Prop :=
  ∃ (dest_node source_node : Fin NN) (eid : EntryId) (ep : ℕ),
    EarliestAddEntryResponse s.msgs dest_node source_node .invalidEpoch eid ep ∧
    (s.node_state dest_node).status = .leader ∧
    (s.node_state dest_node).epoch = ep ∧
    s' = { s with
           node_state := Function.update s.node_state dest_node
             { s.node_state dest_node with
               status := .fenced, follow_cursor := fun _ => NoCursor },
           msgs := s.msgs.erase (.addEntryResponse dest_node source_node .invalidEpoch eid ep) }

/-- TLA+ `ReconfigurationAllowed(ostate)`. -/
def ReconfigurationAllowed (s : Sys NN NO NV) (ostate : OperatorState NN NO)
    (md0 : Metadata NN) : Prop :=
  ostate.status = .running ∧
  md0.shard_status = .steadyState ∧
  md0.reconfig = none ∧
  ostate.md_version = s.metadata_version

instance (s : Sys NN NO NV) (ostate : OperatorState NN NO) (md0 : Metadata NN) :
    Decidable (ReconfigurationAllowed s ostate md0) :=
  decidable_of_iff
    (ostate.status = .running ∧ md0.shard_status = .steadyState ∧ md0.reconfig = none ∧
      ostate.md_version = s.metadata_version) Iff.rfl

/-- TLA+ `OperatorStartsNodeSwapReconfiguration`. -/
def OperatorStartsNodeSwapReconfiguration (C : ProtoConsts) (s s' : Sys NN NO NV) : Prop :=
  s.metadata.epoch < C.MaxEpochs ∧
  ∃ (o : Fin NO) (md0 : Metadata NN) (old_node new_node ldr : Fin NN),
    let ostate := s.operator_state o
    ostate.md = some md0 ∧
    ReconfigurationAllowed s ostate md0 ∧
    old_node ∈ md0.ensemble ∧
    md0.leader ≠ some old_node ∧
    new_node ∉ md0.ensemble ∧
    md0.leader = some ldr ∧
    (let new_epoch := s.metadata.epoch + 1
     let rc : ReconfigMeta NN :=
        ⟨.prepare, .nodeSwap, new_epoch, md0.rep_factor, some old_node, some new_node,
          some NoEntryId⟩
     let new_md := { md0 with
                     shard_status := .reconfiguration, epoch := new_epoch,
                     reconfig := some rc }
     s' = { s with
            metadata_version := s.metadata_version + 1,
            metadata := new_md,
            operator_state := Function.update s.operator_state o
              { ostate with md_version := s.metadata_version + 1, md := some new_md },
            msgs := s.msgs +
              {Msg.prepareReconfigRequest .nodeSwap new_epoch ldr o (some old_node)} })

/-- TLA+ `OperatorStartsExpandReconfiguration`. -/
def OperatorStartsExpandReconfiguration (C : ProtoConsts) (s s' : Sys NN NO NV) : Prop :=
  s.metadata.epoch < C.MaxEpochs ∧
  ∃ (o : Fin NO) (md0 : Metadata NN) (new_node ldr : Fin NN),
    let ostate := s.operator_state o
    ostate.md = some md0 ∧
    ReconfigurationAllowed s ostate md0 ∧
    new_node ∉ md0.ensemble ∧
    md0.leader = some ldr ∧
    (let new_epoch := s.metadata.epoch + 1
     let rc : ReconfigMeta NN :=
        ⟨.prepare, .expand, new_epoch, md0.rep_factor + 1, none, some new_node, some NoEntryId⟩
     let new_md := { md0 with
                     shard_status := .reconfiguration, epoch := new_epoch,
                     reconfig := some rc }
     s' = { s with
            metadata_version := s.metadata_version + 1,
            metadata := new_md,
            operator_state := Function.update s.operator_state o
              { ostate with md_version := s.metadata_version + 1, md := some new_md },
            msgs := s.msgs + {Msg.prepareReconfigRequest .expand new_epoch ldr o none} })

/-- TLA+ `OperatorStartsContractReconfiguration` (requires `rep_factor > 3`).
-/
def OperatorStartsContractReconfiguration (C : ProtoConsts) (s s' : Sys NN NO NV) : Prop :=
  s.metadata.epoch < C.MaxEpochs ∧
  ∃ (o : Fin NO) (md0 : Metadata NN) (old_node ldr : Fin NN),
    let ostate := s.operator_state o
    ostate.md = some md0 ∧
    ReconfigurationAllowed s ostate md0 ∧
    md0.rep_factor > 3 ∧
    old_node ∈ md0.ensemble ∧
    md0.leader ≠ some old_node ∧
    md0.leader = some ldr ∧
    (let new_epoch := s.metadata.epoch + 1
     let rc : ReconfigMeta NN :=
        ⟨.prepare, .contract, new_epoch, md0.rep_factor - 1, some old_node, none, none⟩
     let new_md := { md0 with
                     shard_status := .reconfiguration, epoch := new_epoch,
                     reconfig := some rc }
     s' = { s with
            metadata_version := s.metadata_version + 1,
            metadata := new_md,
            operator_state := Function.update s.operator_state o
              { ostate with md_version := s.metadata_version + 1, md := some new_md },
            msgs := s.msgs +
              {Msg.prepareReconfigRequest .contract new_epoch ldr o (some old_node)} })

/-- TLA+ `LeaderHandlesPrepareReconfigRequest`: adopt the reconfiguration
epoch, mark a reconfiguration in progress; for `NODE_SWAP`/`CONTRACT` set the
old node's cursor to `PENDING_REMOVAL`; reply with the snapshot payload except
for `CONTRACT`. -/
def LeaderHandlesPrepareReconfigRequest (s s' : Sys NN NO NV) : Prop :=
  ∃ (op : ReconfigOp) (ep : ℕ) (n : Fin NN) (o : Fin NO) (oldOpt : Option (Fin NN)),
    Msg.prepareReconfigRequest op ep n o oldOpt ∈ s.msgs ∧
    (s.node_state n).epoch < ep ∧
    (s.node_state n).status = .leader ∧
    (s.node_state n).reconfig_inprog = false ∧
    (let nstate := s.node_state n
     let ns1 := { nstate with epoch := ep, reconfig_inprog := true }
     let new_nstate :=
        if op = .expand then ns1
        else
          match oldOpt with
          | some old =>
            { ns1 with
              follow_cursor := Function.update nstate.follow_cursor old
                { nstate.follow_cursor old with status := .pendingRemoval } }
          | none => ns1
     let resp : Msg NN NO NV :=
        if op = .contract then .prepareReconfigResponse op ep nstate.id o none
        else .prepareReconfigResponse op ep nstate.id o
          (some ⟨nstate.log, nstate.head_index, nstate.commit_index⟩)
     s' = { s with
            node_state := Function.update s.node_state nstate.id new_nstate,
            msgs := (s.msgs.erase (.prepareReconfigRequest op ep n o oldOpt)) + {resp} })

/-- TLA+ `OperatorHandlesPrepareReconfigResponse`: for `NODE_SWAP`/`EXPAND`
forward the snapshot to the new node; for `CONTRACT` move the reconfiguration
to the commit phase (versioned update) and send the commit request. -/
def OperatorHandlesPrepareReconfigResponse (s s' : Sys NN NO NV) : Prop :=
  ∃ (o : Fin NO) (op : ReconfigOp) (ep : ℕ) (n : Fin NN)
      (payload : Option (SnapPayload NV)) (md0 : Metadata NN) (rc : ReconfigMeta NN),
    let ostate := s.operator_state o
    ostate.status = .running ∧
    ostate.md = some md0 ∧
    md0.shard_status = .reconfiguration ∧
    md0.reconfig = some rc ∧
    rc.phase = .prepare ∧
    ostate.md_version = s.metadata_version ∧
    Msg.prepareReconfigResponse op ep n o payload ∈ s.msgs ∧
    md0.epoch = ep ∧
    (((op = .nodeSwap ∨ op = .expand) ∧
      ∃ nn_ : Fin NN,
        payload ≠ none ∧
        rc.new_node = some nn_ ∧
        (let pl := payload.getD ⟨∅, NoEntryId, NoEntryId⟩
         s' = { s with
                msgs := (s.msgs.erase (.prepareReconfigResponse op ep n o payload)) +
                  {Msg.snapshotRequest nn_ o md0.epoch pl.snapshot pl.head_index
                    pl.commit_index} })) ∨
     (op = .contract ∧
      ∃ ldr : Fin NN,
        md0.leader = some ldr ∧
        (let new_md := { md0 with reconfig := some { rc with phase := .commit } }
         s' = { s with
                metadata_version := s.metadata_version + 1,
                metadata := new_md,
                operator_state := Function.update s.operator_state o
                  { ostate with md_version := s.metadata_version + 1, md := some new_md },
                msgs := (s.msgs.erase (.prepareReconfigResponse op ep n o payload)) +
                  {Msg.commitReconfigRequest .contract ldr o md0.epoch rc.rep_factor
                    rc.old_node none none} })))

/-- TLA+ `NodeHandlesSnapshotRequest`: install the snapshot, fence at the
reconfiguration epoch, respond with the head index. -/
def NodeHandlesSnapshotRequest (s s' : Sys NN NO NV) : Prop :=
  ∃ (n : Fin NN) (o : Fin NO) (ep : ℕ) (snap : Finset (LogEntry NV)) (hi ci : EntryId),
    Msg.snapshotRequest n o ep snap hi ci ∈ s.msgs ∧
    (s.node_state n).epoch < ep ∧
    (let nstate := s.node_state n
     s' = { s with
            node_state := Function.update s.node_state nstate.id
              { nstate with
                status := .fenced, epoch := ep, follow_cursor := fun _ => NoCursor,
                log := snap, head_index := hi, commit_index := ci },
            msgs := (s.msgs.erase (.snapshotRequest n o ep snap hi ci)) +
              {Msg.snapshotResponse n o ep hi} })

/-- TLA+ `OperatorHandlesSnapshotResponse`: move the reconfiguration to the
commit phase recording the new node's head index (versioned update), then send
the commit request to the leader. -/
def OperatorHandlesSnapshotResponse (s s' : Sys NN NO NV) : Prop :=
  ∃ (o : Fin NO) (n : Fin NN) (ep : ℕ) (hi : EntryId) (md0 : Metadata NN)
      (rc : ReconfigMeta NN) (ldr : Fin NN),
    let ostate := s.operator_state o
    ostate.status = .running ∧
    ostate.md = some md0 ∧
    md0.shard_status = .reconfiguration ∧
    md0.reconfig = some rc ∧
    rc.phase = .prepare ∧
    s.metadata_version = ostate.md_version ∧
    Msg.snapshotResponse n o ep hi ∈ s.msgs ∧
    md0.epoch = ep ∧
    md0.leader = some ldr ∧
    (let new_md := { md0 with
                     reconfig := some { rc with
                                        phase := .commit,
                                        new_node_head_index := some hi } }
     let req : Msg NN NO NV :=
        if rc.op = .nodeSwap
        then .commitReconfigRequest .nodeSwap ldr o md0.epoch rc.rep_factor rc.old_node
          rc.new_node (some hi)
        else .commitReconfigRequest .expand ldr o md0.epoch rc.rep_factor none
          rc.new_node (some hi)
     s' = { s with
            metadata_version := s.metadata_version + 1,
            metadata := new_md,
            operator_state := Function.update s.operator_state o
              { ostate with md_version := s.metadata_version + 1, md := some new_md },
            msgs := (s.msgs.erase (.snapshotResponse n o ep hi)) + {req} })

/-- TLA+ `LeaderHandlesCommitNodeSwapReconfigRequest`: drop the old node's
cursor, attach the new node's at its head index, recompute the commit index
with the new cursor set and rep factor. -/
def LeaderHandlesCommitNodeSwapReconfigRequest (s s' : Sys NN NO NV) : Prop :=
  ∃ (n : Fin NN) (o : Fin NO) (ep rf : ℕ) (old_node new_node : Fin NN) (hi : EntryId),
    Msg.commitReconfigRequest .nodeSwap n o ep rf (some old_node) (some new_node) (some hi)
      ∈ s.msgs ∧
    (s.node_state n).epoch = ep ∧
    (s.node_state n).status = .leader ∧
    (s.node_state n).reconfig_inprog = true ∧
    ((s.node_state n).follow_cursor old_node).status = .pendingRemoval ∧
    ((s.node_state n).follow_cursor new_node).status = .nil ∧
    (let nstate := s.node_state n
     let updated_cursor : Fin NN → Cursor := fun x =>
        if x = old_node then NoCursor
        else if x = new_node then ⟨.attached, hi, hi⟩
        else nstate.follow_cursor x
     let new_commit_index := NewCommitIndex nstate updated_cursor rf
     s' = { s with
            node_state := Function.update s.node_state nstate.id
              { nstate with
                follow_cursor := updated_cursor, commit_index := new_commit_index,
                reconfig_inprog := false },
            confirmed := UpdateConfirmed s.confirmed nstate new_commit_index,
            msgs := (s.msgs.erase
                (.commitReconfigRequest .nodeSwap n o ep rf (some old_node) (some new_node)
                  (some hi))) +
              {Msg.commitReconfigResponse .nodeSwap n o ep (some old_node) (some new_node)} })

/-- TLA+ `LeaderHandlesCommitExpandReconfigRequest`: attach the new node's
cursor at its head index, adopt the new rep factor, recompute the commit
index. -/
def LeaderHandlesCommitExpandReconfigRequest (s s' : Sys NN NO NV) : Prop :=
  ∃ (n : Fin NN) (o : Fin NO) (ep rf : ℕ) (new_node : Fin NN) (hi : EntryId),
    Msg.commitReconfigRequest .expand n o ep rf none (some new_node) (some hi) ∈ s.msgs ∧
    (s.node_state n).epoch = ep ∧
    (s.node_state n).status = .leader ∧
    (s.node_state n).reconfig_inprog = true ∧
    ((s.node_state n).follow_cursor new_node).status = .nil ∧
    (let nstate := s.node_state n
     let updated_cursor : Fin NN → Cursor := fun x =>
        if x = new_node then ⟨.attached, hi, hi⟩ else nstate.follow_cursor x
     let new_commit_index := NewCommitIndex nstate updated_cursor rf
     s' = { s with
            node_state := Function.update s.node_state nstate.id
              { nstate with
                rep_factor := rf, follow_cursor := updated_cursor,
                commit_index := new_commit_index, reconfig_inprog := false },
            confirmed := UpdateConfirmed s.confirmed nstate new_commit_index,
            msgs := (s.msgs.erase
                (.commitReconfigRequest .expand n o ep rf none (some new_node) (some hi))) +
              {Msg.commitReconfigResponse .expand n o ep none (some new_node)} })

/-- TLA+ `LeaderHandlesCommitContractReconfigRequest`: tentatively remove the
old node's cursor; the commit succeeds (and is enabled) only when the commit
index recomputed without that cursor and with the new rep factor equals the
current commit index, in which case the cursor is removed and the new rep
factor adopted, leaving the commit index untouched. -/
def LeaderHandlesCommitContractReconfigRequest (s s' : Sys NN NO NV) : Prop :=
  ∃ (n : Fin NN) (o : Fin NO) (ep rf : ℕ) (old_node : Fin NN),
    Msg.commitReconfigRequest .contract n o ep rf (some old_node) none none ∈ s.msgs ∧
    (s.node_state n).epoch = ep ∧
    (s.node_state n).status = .leader ∧
    (s.node_state n).reconfig_inprog = true ∧
    ((s.node_state n).follow_cursor old_node).status = .pendingRemoval ∧
    (let nstate := s.node_state n
     let updated_cursor : Fin NN → Cursor := fun x =>
        if x = old_node then NoCursor else nstate.follow_cursor x
     let new_commit_index := NewCommitIndex nstate updated_cursor rf
     IsSameId new_commit_index nstate.commit_index ∧
     s' = { s with
            node_state := Function.update s.node_state nstate.id
              { nstate with
                rep_factor := rf, follow_cursor := updated_cursor,
                reconfig_inprog := false },
            msgs := (s.msgs.erase
                (.commitReconfigRequest .contract n o ep rf (some old_node) none none)) +
              {Msg.commitReconfigResponse .contract n o ep (some old_node) none} })

/-- TLA+ `NewEnsemble(md, msg)`. -/
def NewEnsemble (md : Metadata NN) (op : ReconfigOp) (old_node new_node : Option (Fin NN)) :
    Finset (Fin NN) :=
  match op with
  | .nodeSwap => (md.ensemble \ old_node.toFinset) ∪ new_node.toFinset
  | .expand => md.ensemble ∪ new_node.toFinset
  | .contract => md.ensemble \ old_node.toFinset

/-- TLA+ `OperatorCompletesReconfiguration`: apply the ensemble change to the
metadata and clear the reconfiguration.  Unlike every other metadata write of
the model, the source checks no metadata version here: the write is performed
from the operator's possibly stale copy. -/
def OperatorCompletesReconfiguration (s s' : Sys NN NO NV) : Prop :=
  ∃ (o : Fin NO) (op : ReconfigOp) (n : Fin NN) (ep : ℕ)
      (oldOpt newOpt : Option (Fin NN)) (md0 : Metadata NN) (rc : ReconfigMeta NN),
    let ostate := s.operator_state o
    ostate.status = .running ∧
    Msg.commitReconfigResponse op n o ep oldOpt newOpt ∈ s.msgs ∧
    ostate.md = some md0 ∧
    md0.epoch = ep ∧
    md0.shard_status = .reconfiguration ∧
    md0.reconfig = some rc ∧
    rc.phase = .commit ∧
    (let new_md := { md0 with
                     shard_status := .steadyState,
                     ensemble := NewEnsemble md0 op oldOpt newOpt,
                     rep_factor := rc.rep_factor,
                     reconfig := none }
     s' = { s with
            metadata_version := s.metadata_version + 1,
            metadata := new_md,
            operator_state := Function.update s.operator_state o
              { ostate with md_version := s.metadata_version + 1, md := some new_md },
            msgs := s.msgs.erase (.commitReconfigResponse op n o ep oldOpt newOpt) })

/-- TLA+ `Next`: the disjunction of every action. -/
def Next (C : ProtoConsts) (s s' : Sys NN NO NV) : Prop :=
  OperatorStarts s s' ∨
  OperatorStops C s s' ∨
  OperatorStartsElection C s s' ∨
  NodeHandlesFencingRequest s s' ∨
  OperatorHandlesPreQuorumFencingResponse s s' ∨
  OperatorHandlesQuorumFencingResponse s s' ∨
  NodeHandlesBecomeLeaderRequest s s' ∨
  OperatorHandlesBecomeLeaderResponse s s' ∨
  NodeHandlesTruncateRequest s s' ∨
  LeaderHandlesTruncateResponse s s' ∨
  OperatorHandlesPostQuorumFencingResponse s s' ∨
  LeaderHandlesAddFollowerRequest s s' ∨
  Write s s' ∨
  LeaderSendsEntriesToFollowers s s' ∨
  FollowerConfirmsEntry s s' ∨
  FollowerRejectsEntry s s' ∨
  LeaderHandlesEntryConfirm s s' ∨
  LeaderHandlesEntryRejection s s' ∨
  OperatorStartsNodeSwapReconfiguration C s s' ∨
  OperatorStartsExpandReconfiguration C s s' ∨
  OperatorStartsContractReconfiguration C s s' ∨
  LeaderHandlesPrepareReconfigRequest s s' ∨
  OperatorHandlesPrepareReconfigResponse s s' ∨
  NodeHandlesSnapshotRequest s s' ∨
  OperatorHandlesSnapshotResponse s s' ∨
  LeaderHandlesCommitNodeSwapReconfigRequest s s' ∨
  LeaderHandlesCommitExpandReconfigRequest s s' ∨
  LeaderHandlesCommitContractReconfigRequest s s' ∨
  OperatorCompletesReconfiguration s s'

/-- The TLA+ initial state for a given ensemble: no leader, no followers, no
running operator, empty logs and message fabric. -/
def InitState (C : ProtoConsts) (ensemble : Finset (Fin NN)) : Sys NN NO NV :=
  { metadata_version := 0,
    metadata := ⟨.nil, 0, ensemble, C.RepFactor, none, none⟩,
    node_state := fun n => ⟨n, .notMember, 0, none, 0, ∅, NoEntryId, NoEntryId,
      fun _ => NoCursor, false⟩,
    operator_state := fun o => ⟨o, .notRunning, 0, none, .nil, ∅, ∅, none, ∅⟩,
    confirmed := fun _ => none,
    msgs := 0,
    operator_stop_ctr := 0 }

/-- TLA+ `Init`: its `CHOOSE` fixes one ensemble of cardinality `RepFactor`;
any such choice is admitted here (when `RepFactor` equals the number of nodes
the choice is unique). -/
def IsInit (C : ProtoConsts) (s : Sys NN NO NV) : Prop :=
  ∃ ensemble : Finset (Fin NN), ensemble.card = C.RepFactor ∧ s = InitState C ensemble

/-- A state reachable from the initial state by finitely many `Next` steps. -/
def Reachable (C : ProtoConsts) (s : Sys NN NO NV) : Prop :=
  ∃ s0 : Sys NN NO NV, IsInit C s0 ∧ Relation.ReflTransGen (Next C) s0 s

/-! ### The model's stated invariants -/

/-- TLA+ `AreEqual(entry1, entry2)`. -/
def AreEqual (entry1 entry2 : LogEntry NV) : Prop :=
  entry1.entry_id.epoch = entry2.entry_id.epoch ∧
  entry1.entry_id.offset = entry2.entry_id.offset ∧
  entry1.value = entry2.value

instance (entry1 entry2 : LogEntry NV) : Decidable (AreEqual entry1 entry2) := by
  unfold AreEqual; infer_instance

/-- TLA+ invariant `NoLogDivergence`: whenever the metadata records a leader,
for every node of the metadata ensemble, every entry of the leader's log at or
below that node's commit index has no differing copy in the node's log, and
every entry of the node's log at or below its commit index has an equal entry
in the leader's log. -/
def NoLogDivergence (s : Sys NN NO NV) : Prop :=
  ∀ ldr : Fin NN, s.metadata.leader = some ldr →
    ∀ n ∈ s.metadata.ensemble,
      (∀ entry ∈ (s.node_state ldr).log,
        IsLowerOrEqualId entry.entry_id (s.node_state n).commit_index →
          ¬∃ copy ∈ (s.node_state n).log,
            IsSameId entry.entry_id copy.entry_id ∧ ¬AreEqual entry copy) ∧
      (∀ entry ∈ (s.node_state n).log,
        IsLowerOrEqualId entry.entry_id (s.node_state n).commit_index →
          ∃ mtch ∈ (s.node_state ldr).log, AreEqual entry mtch)

instance (s : Sys NN NO NV) : Decidable (NoLogDivergence s) :=
  decidable_of_iff
    (∀ ldr : Fin NN, s.metadata.leader = some ldr →
      ∀ n ∈ s.metadata.ensemble,
        (∀ entry ∈ (s.node_state ldr).log,
          IsLowerOrEqualId entry.entry_id (s.node_state n).commit_index →
            ¬∃ copy ∈ (s.node_state n).log,
              IsSameId entry.entry_id copy.entry_id ∧ ¬AreEqual entry copy) ∧
        (∀ entry ∈ (s.node_state n).log,
          IsLowerOrEqualId entry.entry_id (s.node_state n).commit_index →
            ∃ mtch ∈ (s.node_state ldr).log, AreEqual entry mtch)) Iff.rfl

/-- TLA+ invariant `NoLossOfConfirmedWrite`: whenever the metadata records a
leader, every value whose write was confirmed to a client has an entry in that
leader's log. -/
def NoLossOfConfirmedWrite (s : Sys NN NO NV) : Prop :=
  ∀ ldr : Fin NN, s.metadata.leader = some ldr →
    ∀ v : Fin NV, s.confirmed v ≠ none →
      ((s.confirmed v = some true ∧
        ∃ entry ∈ (s.node_state ldr).log, entry.value = some v) ∨
       s.confirmed v = some false)

instance (s : Sys NN NO NV) : Decidable (NoLossOfConfirmedWrite s) :=
  decidable_of_iff
    (∀ ldr : Fin NN, s.metadata.leader = some ldr →
      ∀ v : Fin NV, s.confirmed v ≠ none →
        ((s.confirmed v = some true ∧
          ∃ entry ∈ (s.node_state ldr).log, entry.value = some v) ∨
         s.confirmed v = some false)) Iff.rfl

/-- Spec §8 property `UniqueLeaderPerTerm` (the TLA+ sources declare no such
invariant): at most one node is in `Leader` status for any given term. -/
def UniqueLeaderPerTerm (s : Sys NN NO NV) : Prop :=
  ∀ n1 n2 : Fin NN,
    (s.node_state n1).status = .leader →
    (s.node_state n2).status = .leader →
    (s.node_state n1).epoch = (s.node_state n2).epoch →
    n1 = n2

instance (s : Sys NN NO NV) : Decidable (UniqueLeaderPerTerm s) :=
  decidable_of_iff
    (∀ n1 n2 : Fin NN,
      (s.node_state n1).status = .leader →
      (s.node_state n2).status = .leader →
      (s.node_state n1).epoch = (s.node_state n2).epoch →
      n1 = n2) Iff.rfl

/-! ### Injections into `Next` -/

/-- `Next` holds of a step by this action. -/
theorem next_of_operatorStarts {C : ProtoConsts} {s s' : Sys NN NO NV}
    (h : OperatorStarts s s') : Next C s s' :=
  Or.inl h

/-- `Next` holds of a step by this action. -/
theorem next_of_operatorStartsElection {C : ProtoConsts} {s s' : Sys NN NO NV}
    (h : OperatorStartsElection C s s') : Next C s s' :=
  Or.inr (Or.inr (Or.inl h))

/-- `Next` holds of a step by this action. -/
theorem next_of_nodeHandlesFencingRequest {C : ProtoConsts} {s s' : Sys NN NO NV}
    (h : NodeHandlesFencingRequest s s') : Next C s s' :=
  Or.inr (Or.inr (Or.inr (Or.inl h)))

/-- `Next` holds of a step by this action. -/
theorem next_of_preQuorumFencingResponse {C : ProtoConsts} {s s' : Sys NN NO NV}
    (h : OperatorHandlesPreQuorumFencingResponse s s') : Next C s s' :=
  Or.inr (Or.inr (Or.inr (Or.inr (Or.inl h))))

/-- `Next` holds of a step by this action. -/
theorem next_of_quorumFencingResponse {C : ProtoConsts} {s s' : Sys NN NO NV}
    (h : OperatorHandlesQuorumFencingResponse s s') : Next C s s' :=
  Or.inr (Or.inr (Or.inr (Or.inr (Or.inr (Or.inl h)))))

/-- `Next` holds of a step by this action. -/
theorem next_of_nodeHandlesBecomeLeaderRequest {C : ProtoConsts} {s s' : Sys NN NO NV}
    (h : NodeHandlesBecomeLeaderRequest s s') : Next C s s' :=
  Or.inr (Or.inr (Or.inr (Or.inr (Or.inr (Or.inr (Or.inl h))))))

/-- `Next` holds of a step by this action. -/
theorem next_of_operatorHandlesBecomeLeaderResponse {C : ProtoConsts} {s s' : Sys NN NO NV}
    (h : OperatorHandlesBecomeLeaderResponse s s') : Next C s s' :=
  Or.inr (Or.inr (Or.inr (Or.inr (Or.inr (Or.inr (Or.inr (Or.inl h)))))))

/-- `Next` holds of a step by this action. -/
theorem next_of_write {C : ProtoConsts} {s s' : Sys NN NO NV}
    (h : Write s s') : Next C s s' :=
  Or.inr (Or.inr (Or.inr (Or.inr (Or.inr (Or.inr (Or.inr (Or.inr (Or.inr (Or.inr (Or.inr (Or.inr (Or.inl h))))))))))))

/-- `Next` holds of a step by this action. -/
theorem next_of_leaderSendsEntries {C : ProtoConsts} {s s' : Sys NN NO NV}
    (h : LeaderSendsEntriesToFollowers s s') : Next C s s' :=
  Or.inr (Or.inr (Or.inr (Or.inr (Or.inr (Or.inr (Or.inr (Or.inr (Or.inr (Or.inr (Or.inr (Or.inr (Or.inr (Or.inl h)))))))))))))

/-- `Next` holds of a step by this action. -/
theorem next_of_followerConfirmsEntry {C : ProtoConsts} {s s' : Sys NN NO NV}
    (h : FollowerConfirmsEntry s s') : Next C s s' :=
  Or.inr (Or.inr (Or.inr (Or.inr (Or.inr (Or.inr (Or.inr (Or.inr (Or.inr (Or.inr (Or.inr (Or.inr (Or.inr (Or.inr (Or.inl h))))))))))))))

/-- `Next` holds of a step by this action. -/
theorem next_of_leaderHandlesEntryConfirm {C : ProtoConsts} {s s' : Sys NN NO NV}
    (h : LeaderHandlesEntryConfirm s s') : Next C s s' :=
  Or.inr (Or.inr (Or.inr (Or.inr (Or.inr (Or.inr (Or.inr (Or.inr (Or.inr (Or.inr (Or.inr (Or.inr (Or.inr (Or.inr (Or.inr (Or.inr (Or.inl h))))))))))))))))

/-- `Next` holds of a step by this action. -/
theorem next_of_expandStart {C : ProtoConsts} {s s' : Sys NN NO NV}
    (h : OperatorStartsExpandReconfiguration C s s') : Next C s s' :=
  Or.inr (Or.inr (Or.inr (Or.inr (Or.inr (Or.inr (Or.inr (Or.inr (Or.inr (Or.inr (Or.inr (Or.inr (Or.inr (Or.inr (Or.inr (Or.inr (Or.inr (Or.inr (Or.inr (Or.inl h)))))))))))))))))))

/-- `Next` holds of a step by this action. -/
theorem next_of_contractStart {C : ProtoConsts} {s s' : Sys NN NO NV}
    (h : OperatorStartsContractReconfiguration C s s') : Next C s s' :=
  Or.inr (Or.inr (Or.inr (Or.inr (Or.inr (Or.inr (Or.inr (Or.inr (Or.inr (Or.inr (Or.inr (Or.inr (Or.inr (Or.inr (Or.inr (Or.inr (Or.inr (Or.inr (Or.inr (Or.inr (Or.inl h))))))))))))))))))))

/-- `Next` holds of a step by this action. -/
theorem next_of_leaderHandlesPrepareReconfigRequest {C : ProtoConsts} {s s' : Sys NN NO NV}
    (h : LeaderHandlesPrepareReconfigRequest s s') : Next C s s' :=
  Or.inr (Or.inr (Or.inr (Or.inr (Or.inr (Or.inr (Or.inr (Or.inr (Or.inr (Or.inr (Or.inr (Or.inr (Or.inr (Or.inr (Or.inr (Or.inr (Or.inr (Or.inr (Or.inr (Or.inr (Or.inr (Or.inl h)))))))))))))))))))))

/-- `Next` holds of a step by this action. -/
theorem next_of_operatorHandlesPrepareReconfigResponse {C : ProtoConsts} {s s' : Sys NN NO NV}
    (h : OperatorHandlesPrepareReconfigResponse s s') : Next C s s' :=
  Or.inr (Or.inr (Or.inr (Or.inr (Or.inr (Or.inr (Or.inr (Or.inr (Or.inr (Or.inr (Or.inr (Or.inr (Or.inr (Or.inr (Or.inr (Or.inr (Or.inr (Or.inr (Or.inr (Or.inr (Or.inr (Or.inr (Or.inl h))))))))))))))))))))))

/-- `Next` holds of a step by this action. -/
theorem next_of_leaderHandlesCommitContractReconfigRequest {C : ProtoConsts} {s s' : Sys NN NO NV}
    (h : LeaderHandlesCommitContractReconfigRequest s s') : Next C s s' :=
  Or.inr (Or.inr (Or.inr (Or.inr (Or.inr (Or.inr (Or.inr (Or.inr (Or.inr (Or.inr (Or.inr (Or.inr (Or.inr (Or.inr (Or.inr (Or.inr (Or.inr (Or.inr (Or.inr (Or.inr (Or.inr (Or.inr (Or.inr (Or.inr (Or.inr (Or.inr (Or.inr (Or.inl h)))))))))))))))))))))))))))

/-- `Next` holds of a step by this action. -/
theorem next_of_operatorCompletesReconfiguration {C : ProtoConsts} {s s' : Sys NN NO NV}
    (h : OperatorCompletesReconfiguration s s') : Next C s s' :=
  Or.inr (Or.inr (Or.inr (Or.inr (Or.inr (Or.inr (Or.inr (Or.inr (Or.inr (Or.inr (Or.inr (Or.inr (Or.inr (Or.inr (Or.inr (Or.inr (Or.inr (Or.inr (Or.inr (Or.inr (Or.inr (Or.inr (Or.inr (Or.inr (Or.inr (Or.inr (Or.inr (Or.inr (h))))))))))))))))))))))))))))
end Actions

/-! ### A reachable execution of the protocol

The following finite behaviour of the transition system (4 nodes `0..3`, two
operators, two client values, `RepFactor = 4`, `MaxEpochs = 3`) exercises the
unversioned metadata write of `OperatorCompletesReconfiguration`: operator 0
runs an election (epoch 1, leader node 0) and then a contract reconfiguration
(epoch 2) whose commit response it does not process yet; operator 1 starts,
runs an election (epoch 3) fencing nodes 1, 2, 3, electing node 1; operator 0
then completes the stale contract, overwriting the metadata with epoch 2, and
starts an expand reconfiguration that reallocates epoch 3; node 0 — still
leader, never fenced at epoch 3 — adopts epoch 3 from the prepare request,
leaving two leaders of the same term.  Both leaders then commit one value each
through disjoint quorums, producing two confirmed writes with the same entry
id and diverging logs. -/

namespace CEx

def oc : ProtoConsts := ⟨4, 3, 0⟩

abbrev CS := Sys 4 2 2

abbrev CM := Msg 4 2 2

/-- Tabulated node-state assignment. -/
def nsF (x0 x1 x2 x3 : NodeState 4 2) : Fin 4 → NodeState 4 2 := fun n =>
  if n = 0 then x0 else if n = 1 then x1 else if n = 2 then x2 else x3

/-- Tabulated operator-state assignment. -/
def osF (y0 y1 : OperatorState 4 2) : Fin 2 → OperatorState 4 2 := fun o =>
  if o = 0 then y0 else y1

/-- Tabulated cursor assignment. -/
def curF (c0 c1 c2 c3 : Cursor) : Fin 4 → Cursor := fun n =>
  if n = 0 then c0 else if n = 1 then c1 else if n = 2 then c2 else c3

/-- Tabulated confirmation map. -/
def cfF (x y : Option Bool) : Fin 2 → Option Bool := fun v =>
  if v = 0 then x else y

def e13 : EntryId := ⟨1, 3⟩

def ea1 : LogEntry 2 := ⟨e13, some 0⟩

def eb1 : LogEntry 2 := ⟨e13, some 1⟩

def att0 : Cursor := ⟨.attached, NoEntryId, NoEntryId⟩

def attP : Cursor := ⟨.attached, e13, NoEntryId⟩

def attPC : Cursor := ⟨.attached, e13, e13⟩

def pr0 : Cursor := ⟨.pendingRemoval, NoEntryId, NoEntryId⟩

def cur4none : Fin 4 → Cursor := curF NoCursor NoCursor NoCursor NoCursor

def mdN : Metadata 4 := ⟨.nil, 0, Finset.univ, 4, none, none⟩

def mdE1 : Metadata 4 := ⟨.election, 1, Finset.univ, 4, none, none⟩

def mdS1 : Metadata 4 := ⟨.steadyState, 1, Finset.univ, 4, some 0, none⟩

def rcP : ReconfigMeta 4 := ⟨.prepare, .contract, 2, 3, some 3, none, none⟩

def rcC : ReconfigMeta 4 := ⟨.commit, .contract, 2, 3, some 3, none, none⟩

def mdR2 : Metadata 4 := ⟨.reconfiguration, 2, Finset.univ, 4, some 0, some rcP⟩

def mdR2C : Metadata 4 := ⟨.reconfiguration, 2, Finset.univ, 4, some 0, some rcC⟩

def mdE3 : Metadata 4 := ⟨.election, 3, Finset.univ, 4, none, some rcC⟩

def mdS3 : Metadata 4 := ⟨.steadyState, 3, Finset.univ, 4, some 1, none⟩

def mdS2c : Metadata 4 := ⟨.steadyState, 2, {0, 1, 2}, 3, some 0, none⟩

def rcX : ReconfigMeta 4 := ⟨.prepare, .expand, 3, 4, none, some 3, some NoEntryId⟩

def mdR3 : Metadata 4 := ⟨.reconfiguration, 3, {0, 1, 2}, 3, some 0, some rcX⟩

def fra : FenceResp 4 2 := ⟨0, 0, NoEntryId, 1⟩

def frb : FenceResp 4 2 := ⟨1, 0, NoEntryId, 1⟩

def frc : FenceResp 4 2 := ⟨2, 0, NoEntryId, 1⟩

def gb : FenceResp 4 2 := ⟨1, 1, NoEntryId, 3⟩

def gc : FenceResp 4 2 := ⟨2, 1, NoEntryId, 3⟩

def gd : FenceResp 4 2 := ⟨3, 1, NoEntryId, 3⟩

def fm1 : Fin 4 → Option EntryId :=
  GetFollowerMap 0 ({fra, frb} ∪ {frc}) (FinalElectionEnsemble mdE1)

def fm2 : Fin 4 → Option EntryId :=
  GetFollowerMap 1 ({gb, gc} ∪ {gd}) (FinalElectionEnsemble mdE3)

def F10 : CM := .fenceRequest 0 0 1

def F11 : CM := .fenceRequest 1 0 1

def F12 : CM := .fenceRequest 2 0 1

def F13 : CM := .fenceRequest 3 0 1

def Ra : CM := .fenceResponse fra

def Rb : CM := .fenceResponse frb

def Rc : CM := .fenceResponse frc

def BLR1 : CM := .becomeLeaderRequest 0 0 1 4 fm1

def BLQ1 : CM := .becomeLeaderResponse 0 0 1

def PR1 : CM := .prepareReconfigRequest .contract 2 0 0 (some 3)

def PRR1 : CM := .prepareReconfigResponse .contract 2 0 0 none

def CR1 : CM := .commitReconfigRequest .contract 0 0 2 3 (some 3) none none

def CRR1 : CM := .commitReconfigResponse .contract 0 0 2 (some 3) none

def G30 : CM := .fenceRequest 0 1 3

def G31 : CM := .fenceRequest 1 1 3

def G32 : CM := .fenceRequest 2 1 3

def G33 : CM := .fenceRequest 3 1 3

def Sb : CM := .fenceResponse gb

def Sc : CM := .fenceResponse gc

def Sd : CM := .fenceResponse gd

def BLR2 : CM := .becomeLeaderRequest 1 1 3 4 fm2

def BLQ2 : CM := .becomeLeaderResponse 1 1 3

def PR2 : CM := .prepareReconfigRequest .expand 3 0 0 none

def PRR2 : CM := .prepareReconfigResponse .expand 3 0 0 (some ⟨∅, NoEntryId, NoEntryId⟩)

def AB : CM := .addEntryRequest 1 0 ea1 NoEntryId 3

def AC : CM := .addEntryRequest 2 0 ea1 NoEntryId 3

def RC0 : CM := .addEntryResponse 0 2 .ok e13 3

def BC : CM := .addEntryRequest 2 1 eb1 NoEntryId 3

def BD : CM := .addEntryRequest 3 1 eb1 NoEntryId 3

def RD1 : CM := .addEntryResponse 1 3 .ok e13 3

def RC1 : CM := .addEntryResponse 1 2 .ok e13 3

def nd0 (n : Fin 4) : NodeState 4 2 :=
  ⟨n, .notMember, 0, none, 0, ∅, NoEntryId, NoEntryId, cur4none, false⟩

def aF1 : NodeState 4 2 := ⟨0, .fenced, 1, none, 0, ∅, NoEntryId, NoEntryId, cur4none, false⟩

def aL1 : NodeState 4 2 :=
  ⟨0, .leader, 1, some 0, 4, ∅, NoEntryId, NoEntryId, curF NoCursor att0 att0 NoCursor, false⟩

def aP2 : NodeState 4 2 :=
  ⟨0, .leader, 2, some 0, 4, ∅, NoEntryId, NoEntryId, curF NoCursor att0 att0 pr0, true⟩

def aC2 : NodeState 4 2 :=
  ⟨0, .leader, 2, some 0, 3, ∅, NoEntryId, NoEntryId, curF NoCursor att0 att0 NoCursor, false⟩

def aX3 : NodeState 4 2 :=
  ⟨0, .leader, 3, some 0, 3, ∅, NoEntryId, NoEntryId, curF NoCursor att0 att0 NoCursor, true⟩

def aW3 : NodeState 4 2 :=
  ⟨0, .leader, 3, some 0, 3, {ea1}, NoEntryId, e13, curF NoCursor att0 att0 NoCursor, true⟩

def aS3 : NodeState 4 2 :=
  ⟨0, .leader, 3, some 0, 3, {ea1}, NoEntryId, e13, curF NoCursor attP attP NoCursor, true⟩

def aK3 : NodeState 4 2 :=
  ⟨0, .leader, 3, some 0, 3, {ea1}, e13, e13, curF NoCursor attP attPC NoCursor, true⟩

def bF1 : NodeState 4 2 := ⟨1, .fenced, 1, none, 0, ∅, NoEntryId, NoEntryId, cur4none, false⟩

def bF3 : NodeState 4 2 := ⟨1, .fenced, 3, none, 0, ∅, NoEntryId, NoEntryId, cur4none, false⟩

def bL3 : NodeState 4 2 :=
  ⟨1, .leader, 3, some 1, 4, ∅, NoEntryId, NoEntryId, curF NoCursor NoCursor att0 att0, false⟩

def bW3 : NodeState 4 2 :=
  ⟨1, .leader, 3, some 1, 4, {eb1}, NoEntryId, e13, curF NoCursor NoCursor att0 att0, false⟩

def bS3 : NodeState 4 2 :=
  ⟨1, .leader, 3, some 1, 4, {eb1}, NoEntryId, e13, curF NoCursor NoCursor attP attP, false⟩

def bT3 : NodeState 4 2 :=
  ⟨1, .leader, 3, some 1, 4, {eb1}, NoEntryId, e13, curF NoCursor NoCursor attP attPC, false⟩

def bK3 : NodeState 4 2 :=
  ⟨1, .leader, 3, some 1, 4, {eb1}, e13, e13, curF NoCursor NoCursor attPC attPC, false⟩

def cF1 : NodeState 4 2 := ⟨2, .fenced, 1, none, 0, ∅, NoEntryId, NoEntryId, cur4none, false⟩

def cF3 : NodeState 4 2 := ⟨2, .fenced, 3, none, 0, ∅, NoEntryId, NoEntryId, cur4none, false⟩

def cFo3 : NodeState 4 2 :=
  ⟨2, .follower, 3, some 0, 0, {ea1}, NoEntryId, e13, cur4none, false⟩

def cFb3 : NodeState 4 2 :=
  ⟨2, .follower, 3, some 1, 0, {ea1, eb1}, NoEntryId, e13, cur4none, false⟩

def dF3 : NodeState 4 2 := ⟨3, .fenced, 3, none, 0, ∅, NoEntryId, NoEntryId, cur4none, false⟩

def dFo3 : NodeState 4 2 :=
  ⟨3, .follower, 3, some 1, 0, {eb1}, NoEntryId, e13, cur4none, false⟩

def p0 : OperatorState 4 2 := ⟨0, .notRunning, 0, none, .nil, ∅, ∅, none, ∅⟩

def q0 : OperatorState 4 2 := ⟨1, .notRunning, 0, none, .nil, ∅, ∅, none, ∅⟩

def o1a : OperatorState 4 2 := ⟨0, .running, 0, some mdN, .nil, ∅, ∅, none, ∅⟩

def o1b : OperatorState 4 2 :=
  ⟨0, .running, 1, some mdE1, .fencing, Finset.univ, ∅, none, ∅⟩

def o1c : OperatorState 4 2 :=
  ⟨0, .running, 1, some mdE1, .fencing, Finset.univ, ∅, none, {fra}⟩

def o1d : OperatorState 4 2 :=
  ⟨0, .running, 1, some mdE1, .fencing, Finset.univ, ∅, none, {fra, frb}⟩

def o1e : OperatorState 4 2 :=
  ⟨0, .running, 1, some mdE1, .notifyLeader, Finset.univ, Finset.univ, some 0,
    {fra, frb, frc}⟩

def o1f : OperatorState 4 2 :=
  ⟨0, .running, 2, some mdS1, .leaderElected, Finset.univ, Finset.univ, some 0,
    {fra, frb, frc}⟩

def o1g : OperatorState 4 2 :=
  ⟨0, .running, 3, some mdR2, .leaderElected, Finset.univ, Finset.univ, some 0,
    {fra, frb, frc}⟩

def o1h : OperatorState 4 2 :=
  ⟨0, .running, 4, some mdR2C, .leaderElected, Finset.univ, Finset.univ, some 0,
    {fra, frb, frc}⟩

def o1i : OperatorState 4 2 :=
  ⟨0, .running, 7, some mdS2c, .leaderElected, Finset.univ, Finset.univ, some 0,
    {fra, frb, frc}⟩

def o1j : OperatorState 4 2 :=
  ⟨0, .running, 8, some mdR3, .leaderElected, Finset.univ, Finset.univ, some 0,
    {fra, frb, frc}⟩

def o2a : OperatorState 4 2 := ⟨1, .running, 4, some mdR2C, .nil, ∅, ∅, none, ∅⟩

def o2b : OperatorState 4 2 :=
  ⟨1, .running, 5, some mdE3, .fencing, Finset.univ, ∅, none, ∅⟩

def o2c : OperatorState 4 2 :=
  ⟨1, .running, 5, some mdE3, .fencing, Finset.univ, ∅, none, {gb}⟩

def o2d : OperatorState 4 2 :=
  ⟨1, .running, 5, some mdE3, .fencing, Finset.univ, ∅, none, {gb, gc}⟩

def o2e : OperatorState 4 2 :=
  ⟨1, .running, 5, some mdE3, .notifyLeader, Finset.univ, Finset.univ, some 1, {gb, gc, gd}⟩

def o2f : OperatorState 4 2 :=
  ⟨1, .running, 6, some mdS3, .leaderElected, Finset.univ, Finset.univ, some 1, {gb, gc, gd}⟩

def s0 : CS := InitState oc Finset.univ

def s1 : CS :=
  ⟨0, mdN, nsF (nd0 0) (nd0 1) (nd0 2) (nd0 3), osF o1a q0, cfF none none, 0, 0⟩

def s2 : CS :=
  ⟨1, mdE1, nsF (nd0 0) (nd0 1) (nd0 2) (nd0 3), osF o1b q0, cfF none none,
    {F10, F11, F12, F13}, 0⟩

def s3 : CS :=
  ⟨1, mdE1, nsF aF1 (nd0 1) (nd0 2) (nd0 3), osF o1b q0, cfF none none,
    {F11, F12, F13, Ra}, 0⟩

def s4 : CS :=
  ⟨1, mdE1, nsF aF1 bF1 (nd0 2) (nd0 3), osF o1b q0, cfF none none,
    {F12, F13, Ra, Rb}, 0⟩

def s5 : CS :=
  ⟨1, mdE1, nsF aF1 bF1 cF1 (nd0 3), osF o1b q0, cfF none none,
    {F13, Ra, Rb, Rc}, 0⟩

def s6 : CS :=
  ⟨1, mdE1, nsF aF1 bF1 cF1 (nd0 3), osF o1c q0, cfF none none, {F13, Rb, Rc}, 0⟩

def s7 : CS :=
  ⟨1, mdE1, nsF aF1 bF1 cF1 (nd0 3), osF o1d q0, cfF none none, {F13, Rc}, 0⟩

def s8 : CS :=
  ⟨1, mdE1, nsF aF1 bF1 cF1 (nd0 3), osF o1e q0, cfF none none, {F13, BLR1}, 0⟩

def s9 : CS :=
  ⟨1, mdE1, nsF aL1 bF1 cF1 (nd0 3), osF o1e q0, cfF none none, {F13, BLQ1}, 0⟩

def s10 : CS :=
  ⟨2, mdS1, nsF aL1 bF1 cF1 (nd0 3), osF o1f q0, cfF none none, {F13}, 0⟩

def s11 : CS :=
  ⟨3, mdR2, nsF aL1 bF1 cF1 (nd0 3), osF o1g q0, cfF none none, {F13, PR1}, 0⟩

def s12 : CS :=
  ⟨3, mdR2, nsF aP2 bF1 cF1 (nd0 3), osF o1g q0, cfF none none, {F13, PRR1}, 0⟩

def s13 : CS :=
  ⟨4, mdR2C, nsF aP2 bF1 cF1 (nd0 3), osF o1h q0, cfF none none, {F13, CR1}, 0⟩

def s14 : CS :=
  ⟨4, mdR2C, nsF aC2 bF1 cF1 (nd0 3), osF o1h q0, cfF none none, {F13, CRR1}, 0⟩

def s15 : CS :=
  ⟨4, mdR2C, nsF aC2 bF1 cF1 (nd0 3), osF o1h o2a, cfF none none, {F13, CRR1}, 0⟩

def s16 : CS :=
  ⟨5, mdE3, nsF aC2 bF1 cF1 (nd0 3), osF o1h o2b, cfF none none,
    {F13, CRR1, G30, G31, G32, G33}, 0⟩

def s17 : CS :=
  ⟨5, mdE3, nsF aC2 bF3 cF1 (nd0 3), osF o1h o2b, cfF none none,
    {F13, CRR1, G30, G32, G33, Sb}, 0⟩

def s18 : CS :=
  ⟨5, mdE3, nsF aC2 bF3 cF3 (nd0 3), osF o1h o2b, cfF none none,
    {F13, CRR1, G30, G33, Sb, Sc}, 0⟩

def s19 : CS :=
  ⟨5, mdE3, nsF aC2 bF3 cF3 dF3, osF o1h o2b, cfF none none,
    {F13, CRR1, G30, Sb, Sc, Sd}, 0⟩

def s20 : CS :=
  ⟨5, mdE3, nsF aC2 bF3 cF3 dF3, osF o1h o2c, cfF none none,
    {F13, CRR1, G30, Sc, Sd}, 0⟩

def s21 : CS :=
  ⟨5, mdE3, nsF aC2 bF3 cF3 dF3, osF o1h o2d, cfF none none,
    {F13, CRR1, G30, Sd}, 0⟩

def s22 : CS :=
  ⟨5, mdE3, nsF aC2 bF3 cF3 dF3, osF o1h o2e, cfF none none,
    {F13, CRR1, G30, BLR2}, 0⟩

def s23 : CS :=
  ⟨5, mdE3, nsF aC2 bL3 cF3 dF3, osF o1h o2e, cfF none none,
    {F13, CRR1, G30, BLQ2}, 0⟩

def s24 : CS :=
  ⟨6, mdS3, nsF aC2 bL3 cF3 dF3, osF o1h o2f, cfF none none, {F13, CRR1, G30}, 0⟩

def s25 : CS :=
  ⟨7, mdS2c, nsF aC2 bL3 cF3 dF3, osF o1i o2f, cfF none none, {F13, G30}, 0⟩

def s26 : CS :=
  ⟨8, mdR3, nsF aC2 bL3 cF3 dF3, osF o1j o2f, cfF none none, {F13, G30, PR2}, 0⟩

def s27 : CS :=
  ⟨8, mdR3, nsF aX3 bL3 cF3 dF3, osF o1j o2f, cfF none none, {F13, G30, PRR2}, 0⟩

def s28 : CS :=
  ⟨8, mdR3, nsF aW3 bL3 cF3 dF3, osF o1j o2f, cfF (some false) none,
    {F13, G30, PRR2}, 0⟩

def s29 : CS :=
  ⟨8, mdR3, nsF aS3 bL3 cF3 dF3, osF o1j o2f, cfF (some false) none,
    {F13, G30, PRR2, AB, AC}, 0⟩

def s30 : CS :=
  ⟨8, mdR3, nsF aS3 bL3 cFo3 dF3, osF o1j o2f, cfF (some false) none,
    {F13, G30, PRR2, AB, RC0}, 0⟩

def s31 : CS :=
  ⟨8, mdR3, nsF aK3 bL3 cFo3 dF3, osF o1j o2f, cfF (some true) none,
    {F13, G30, PRR2, AB}, 0⟩

def s32 : CS :=
  ⟨8, mdR3, nsF aK3 bW3 cFo3 dF3, osF o1j o2f, cfF (some true) (some false),
    {F13, G30, PRR2, AB}, 0⟩

def s33 : CS :=
  ⟨8, mdR3, nsF aK3 bS3 cFo3 dF3, osF o1j o2f, cfF (some true) (some false),
    {F13, G30, PRR2, AB, BC, BD}, 0⟩

def s34 : CS :=
  ⟨8, mdR3, nsF aK3 bS3 cFo3 dFo3, osF o1j o2f, cfF (some true) (some false),
    {F13, G30, PRR2, AB, BC, RD1}, 0⟩

def s35 : CS :=
  ⟨8, mdR3, nsF aK3 bS3 cFb3 dFo3, osF o1j o2f, cfF (some true) (some false),
    {F13, G30, PRR2, AB, RD1, RC1}, 0⟩

def s36 : CS :=
  ⟨8, mdR3, nsF aK3 bT3 cFb3 dFo3, osF o1j o2f, cfF (some true) (some false),
    {F13, G30, PRR2, AB, RC1}, 0⟩

def s37 : CS :=
  ⟨8, mdR3, nsF aK3 bK3 cFb3 dFo3, osF o1j o2f, cfF (some true) (some true),
    {F13, G30, PRR2, AB}, 0⟩

theorem step01 : OperatorStarts s0 s1 := ⟨0, by decide⟩

theorem step02 : OperatorStartsElection oc s1 s2 := ⟨0, mdN, by decide⟩

theorem step03 : NodeHandlesFencingRequest s2 s3 := ⟨0, 0, 1, by decide⟩

theorem step04 : NodeHandlesFencingRequest s3 s4 := ⟨1, 0, 1, by decide⟩

theorem step05 : NodeHandlesFencingRequest s4 s5 := ⟨2, 0, 1, by decide⟩

theorem step06 : OperatorHandlesPreQuorumFencingResponse s5 s6 := ⟨0, fra, mdE1, by decide⟩

theorem step07 : OperatorHandlesPreQuorumFencingResponse s6 s7 := ⟨0, frb, mdE1, by decide⟩

theorem step08 : OperatorHandlesQuorumFencingResponse s7 s8 := ⟨0, frc, mdE1, 0, by decide⟩

theorem step09 : NodeHandlesBecomeLeaderRequest s8 s9 := ⟨0, 0, 1, 4, fm1, by decide⟩

theorem step10 : OperatorHandlesBecomeLeaderResponse s9 s10 := ⟨0, 0, 1, mdE1, by decide⟩

theorem step11 : OperatorStartsContractReconfiguration oc s10 s11 :=
  ⟨by decide, 0, mdS1, 3, 0, by decide⟩

theorem step12 : LeaderHandlesPrepareReconfigRequest s11 s12 :=
  ⟨.contract, 2, 0, 0, some 3, by decide⟩

theorem step13 : OperatorHandlesPrepareReconfigResponse s12 s13 :=
  ⟨0, .contract, 2, 0, none, mdR2, rcP, by decide⟩

theorem step14 : LeaderHandlesCommitContractReconfigRequest s13 s14 :=
  ⟨0, 0, 2, 3, 3, by decide⟩

theorem step15 : OperatorStarts s14 s15 := ⟨1, by decide⟩

theorem step16 : OperatorStartsElection oc s15 s16 := ⟨1, mdR2C, by decide⟩

theorem step17 : NodeHandlesFencingRequest s16 s17 := ⟨1, 1, 3, by decide⟩

theorem step18 : NodeHandlesFencingRequest s17 s18 := ⟨2, 1, 3, by decide⟩

theorem step19 : NodeHandlesFencingRequest s18 s19 := ⟨3, 1, 3, by decide⟩

theorem step20 : OperatorHandlesPreQuorumFencingResponse s19 s20 := ⟨1, gb, mdE3, by decide⟩

theorem step21 : OperatorHandlesPreQuorumFencingResponse s20 s21 := ⟨1, gc, mdE3, by decide⟩

theorem step22 : OperatorHandlesQuorumFencingResponse s21 s22 := ⟨1, gd, mdE3, 1, by decide⟩

theorem step23 : NodeHandlesBecomeLeaderRequest s22 s23 := ⟨1, 1, 3, 4, fm2, by decide⟩

theorem step24 : OperatorHandlesBecomeLeaderResponse s23 s24 := ⟨1, 1, 3, mdE3, by decide⟩

theorem step25 : OperatorCompletesReconfiguration s24 s25 :=
  ⟨0, .contract, 0, 2, some 3, none, mdR2C, rcC, by decide⟩

theorem step26 : OperatorStartsExpandReconfiguration oc s25 s26 :=
  ⟨by decide, 0, mdS2c, 3, 0, by decide⟩

theorem step27 : LeaderHandlesPrepareReconfigRequest s26 s27 :=
  ⟨.expand, 3, 0, 0, none, by decide⟩

theorem step28 : Write s27 s28 := ⟨0, 0, by decide⟩

theorem step29 : LeaderSendsEntriesToFollowers s28 s29 := ⟨0, {1, 2}, by decide⟩

theorem step30 : FollowerConfirmsEntry s29 s30 := ⟨2, 0, ea1, NoEntryId, 3, by decide⟩

theorem step31 : LeaderHandlesEntryConfirm s30 s31 := ⟨0, 2, e13, 3, by decide⟩

theorem step32 : Write s31 s32 := ⟨1, 1, by decide⟩

theorem step33 : LeaderSendsEntriesToFollowers s32 s33 := ⟨1, {2, 3}, by decide⟩

theorem step34 : FollowerConfirmsEntry s33 s34 := ⟨3, 1, eb1, NoEntryId, 3, by decide⟩

theorem step35 : FollowerConfirmsEntry s34 s35 := ⟨2, 1, eb1, NoEntryId, 3, by decide⟩

theorem step36 : LeaderHandlesEntryConfirm s35 s36 := ⟨1, 3, e13, 3, by decide⟩

theorem step37 : LeaderHandlesEntryConfirm s36 s37 := ⟨1, 2, e13, 3, by decide⟩

/-- The 37-step behaviour above is a `Next`-path from `s0` to `s37`. -/
theorem reach37 : Relation.ReflTransGen (Next oc) s0 s37 := by
  have r : Relation.ReflTransGen (Next oc) s0 s1 :=
    Relation.ReflTransGen.single (next_of_operatorStarts step01)
  replace r := r.tail (next_of_operatorStartsElection step02)
  replace r := r.tail (next_of_nodeHandlesFencingRequest step03)
  replace r := r.tail (next_of_nodeHandlesFencingRequest step04)
  replace r := r.tail (next_of_nodeHandlesFencingRequest step05)
  replace r := r.tail (next_of_preQuorumFencingResponse step06)
  replace r := r.tail (next_of_preQuorumFencingResponse step07)
  replace r := r.tail (next_of_quorumFencingResponse step08)
  replace r := r.tail (next_of_nodeHandlesBecomeLeaderRequest step09)
  replace r := r.tail (next_of_operatorHandlesBecomeLeaderResponse step10)
  replace r := r.tail (next_of_contractStart step11)
  replace r := r.tail (next_of_leaderHandlesPrepareReconfigRequest step12)
  replace r := r.tail (next_of_operatorHandlesPrepareReconfigResponse step13)
  replace r := r.tail (next_of_leaderHandlesCommitContractReconfigRequest step14)
  replace r := r.tail (next_of_operatorStarts step15)
  replace r := r.tail (next_of_operatorStartsElection step16)
  replace r := r.tail (next_of_nodeHandlesFencingRequest step17)
  replace r := r.tail (next_of_nodeHandlesFencingRequest step18)
  replace r := r.tail (next_of_nodeHandlesFencingRequest step19)
  replace r := r.tail (next_of_preQuorumFencingResponse step20)
  replace r := r.tail (next_of_preQuorumFencingResponse step21)
  replace r := r.tail (next_of_quorumFencingResponse step22)
  replace r := r.tail (next_of_nodeHandlesBecomeLeaderRequest step23)
  replace r := r.tail (next_of_operatorHandlesBecomeLeaderResponse step24)
  replace r := r.tail (next_of_operatorCompletesReconfiguration step25)
  replace r := r.tail (next_of_expandStart step26)
  replace r := r.tail (next_of_leaderHandlesPrepareReconfigRequest step27)
  replace r := r.tail (next_of_write step28)
  replace r := r.tail (next_of_leaderSendsEntries step29)
  replace r := r.tail (next_of_followerConfirmsEntry step30)
  replace r := r.tail (next_of_leaderHandlesEntryConfirm step31)
  replace r := r.tail (next_of_write step32)
  replace r := r.tail (next_of_leaderSendsEntries step33)
  replace r := r.tail (next_of_followerConfirmsEntry step34)
  replace r := r.tail (next_of_followerConfirmsEntry step35)
  replace r := r.tail (next_of_leaderHandlesEntryConfirm step36)
  replace r := r.tail (next_of_leaderHandlesEntryConfirm step37)
  exact r

/-- `s37` is reachable: `s0` is the initial state for the full ensemble. -/
theorem reachable37 : Reachable oc s37 :=
  ⟨s0, ⟨Finset.univ, by decide, rfl⟩, reach37⟩

end CEx

/-! ### The safety properties are not invariants of the model -/

/-- **C1.** The claim states that in every reachable state in which the
metadata records a leader, every value ever reported committed to a client
appears in the recorded leader's log (`NoLossOfConfirmedWrite`).  This is
refuted: in the reachable state `CEx.s37` the metadata records node `0` as
leader, value `1` was confirmed to the client, yet no entry of node `0`'s log
carries value `1`.  The root cause is `OperatorCompletesReconfiguration`,
which writes the metadata without the compare-and-set version check every
other metadata write performs, letting a stale operator roll the metadata
back and re-issue an already-used epoch to a second leader. -/
theorem noLossOfConfirmedWrite_violated :
    ∃ s : Sys 4 2 2, Reachable CEx.oc s ∧
      s.metadata.leader = some 0 ∧
      s.confirmed 1 = some true ∧
      (∀ entry ∈ (s.node_state 0).log, entry.value ≠ some 1) ∧
      ¬ NoLossOfConfirmedWrite s :=
  ⟨CEx.s37, CEx.reachable37, by decide, by decide, by decide, by decide⟩

/-- **C2.** The claim states that in every reachable state with a recorded
leader, entries at or below a node's commit index never differ from the
leader's log (`NoLogDivergence`).  This is refuted: in the reachable state
`CEx.s37` node `1`'s log holds the entry `⟨offset 1, epoch 3⟩ ↦ value 1` at
its own commit index, while the recorded leader (node `0`) holds a different
value at the same entry id, so the entry has no equal copy in the leader's
log. -/
theorem noLogDivergence_violated :
    ∃ s : Sys 4 2 2, Reachable CEx.oc s ∧
      s.metadata.leader = some 0 ∧
      (1 : Fin 4) ∈ s.metadata.ensemble ∧
      CEx.eb1 ∈ (s.node_state 1).log ∧
      IsLowerOrEqualId CEx.eb1.entry_id (s.node_state 1).commit_index ∧
      CEx.ea1 ∈ (s.node_state 0).log ∧
      IsSameId CEx.eb1.entry_id CEx.ea1.entry_id ∧
      ¬ AreEqual CEx.eb1 CEx.ea1 ∧
      (∀ mtch ∈ (s.node_state 0).log, ¬ AreEqual CEx.eb1 mtch) ∧
      ¬ NoLogDivergence s :=
  ⟨CEx.s37, CEx.reachable37, by decide, by decide, by decide, by decide, by decide,
    by decide, by decide, by decide, by decide⟩

/-- **C5.** The claim states that in every reachable state at most one node is
in `Leader` status for any given term.  This is refuted: in the reachable
state `CEx.s37` nodes `0` and `1` are both in `Leader` status at epoch `3`
(node `1` was elected at epoch 3; a stale operator's unversioned
`OperatorCompletesReconfiguration` rolled the metadata back to epoch 2, and
its next reconfiguration re-allocated epoch 3 to node `0`). -/
theorem uniqueLeaderPerTerm_violated :
    ∃ s : Sys 4 2 2, Reachable CEx.oc s ∧
      (s.node_state 0).status = .leader ∧
      (s.node_state 1).status = .leader ∧
      (s.node_state 0).epoch = (s.node_state 1).epoch ∧
      ¬ UniqueLeaderPerTerm s :=
  ⟨CEx.s37, CEx.reachable37, by decide, by decide, by decide, by decide⟩

/-! ### C3: characterization of committedness on the leader -/

/-- The claim's ordering on entry ids: lexicographic on `(term, offset)`
(spec wording), stated directly on the fields. -/
def specLeId (a b : EntryId) : Prop :=
  a.epoch < b.epoch ∨ (a.epoch = b.epoch ∧ a.offset ≤ b.offset)

instance (a b : EntryId) : Decidable (specLeId a b) :=
  decidable_of_iff (a.epoch < b.epoch ∨ (a.epoch = b.epoch ∧ a.offset ≤ b.offset)) Iff.rfl

theorem specLeId_iff (a b : EntryId) : specLeId a b ↔ a ≤ b := by
  unfold specLeId
  exact (eid_le_iff a b).symm

/-- The claim's quorum count, following the spec's words: the number of
follow cursors in `Attached` status (cursors in `PendingTruncate` or
`PendingRemoval` never count) whose `last_confirmed` is `≥ eid` is at least
`rep_factor / 2` (integer division; the leader counts itself implicitly). -/
def SpecAttachedQuorum {NN : ℕ} (eid : EntryId) (cursor : Fin NN → Cursor) (rf : ℕ) : Prop :=
  rf / 2 ≤ (Finset.univ.filter (fun n : Fin NN =>
    (cursor n).status = .attached ∧ specLeId eid (cursor n).last_confirmed)).card

instance {NN : ℕ} (eid : EntryId) (cursor : Fin NN → Cursor) (rf : ℕ) :
    Decidable (SpecAttachedQuorum eid cursor rf) :=
  decidable_of_iff
    (rf / 2 ≤ (Finset.univ.filter (fun n : Fin NN =>
      (cursor n).status = .attached ∧ specLeId eid (cursor n).last_confirmed)).card) Iff.rfl

/-- The source's `EntryReachedQuorum` is the claim's attached-cursor count. -/
theorem specAttachedQuorum_iff {NN : ℕ} (eid : EntryId) (cursor : Fin NN → Cursor) (rf : ℕ) :
    EntryReachedQuorum eid cursor rf ↔ SpecAttachedQuorum eid cursor rf := by
  unfold EntryReachedQuorum SpecAttachedQuorum
  rw [Finset.filter_congr (fun n _ => and_congr_right (fun _ =>
    (isLowerOrEqualId_iff_le _ _).trans (specLeId_iff _ _).symm))]

/-- **C3.** On the leader, an entry of the log is committed iff (a) the count
of `Attached` cursors (pending ones never count) whose `last_confirmed` is at
or above its id reaches `rep_factor / 2`, (b) every log entry with id at or
below it also reaches that count, and (c) its term equals the leader's
current term — so an entry of a prior term is never committed by cursor count
alone, only transitively below a committed current-term entry.  (Conjunct (a)
is the instance of (b) at the entry itself.) -/
theorem entryIsCommitted_characterization {NN NV : ℕ} (nstate : NodeState NN NV)
    (entry : LogEntry NV) (cursor : Fin NN → Cursor) (rf : ℕ)
    (hmem : entry ∈ nstate.log) :
    EntryIsCommitted nstate entry.entry_id cursor rf ↔
      (SpecAttachedQuorum entry.entry_id cursor rf ∧
       (∀ e2 ∈ nstate.log, specLeId e2.entry_id entry.entry_id →
          SpecAttachedQuorum e2.entry_id cursor rf) ∧
       entry.entry_id.epoch = nstate.epoch) := by
  unfold EntryIsCommitted LogPrefixAtQuorum
  constructor
  · rintro ⟨hpq, hep⟩
    refine ⟨?_, ?_, hep⟩
    · rcases hpq entry hmem with hhi | ⟨_, hq⟩
      · exact absurd ((isHigherId_iff_lt _ _).mp hhi) (lt_irrefl _)
      · exact (specAttachedQuorum_iff _ _ _).mp hq
    · intro e2 he2 hle
      rcases hpq e2 he2 with hhi | ⟨_, hq⟩
      · exact absurd ((specLeId_iff _ _).mp hle)
          (not_le.mpr ((isHigherId_iff_lt _ _).mp hhi))
      · exact (specAttachedQuorum_iff _ _ _).mp hq
  · rintro ⟨_, hall, hep⟩
    refine ⟨fun e2 he2 => ?_, hep⟩
    by_cases hle : e2.entry_id ≤ entry.entry_id
    · exact Or.inr ⟨(isLowerOrEqualId_iff_le _ _).mpr hle,
        (specAttachedQuorum_iff _ _ _).mpr (hall e2 he2 ((specLeId_iff _ _).mpr hle))⟩
    · exact Or.inl ((isHigherId_iff_lt _ _).mpr (not_le.mp hle))

/-- Witness for C3 at the leader state `CEx.aK3` (log `{⟨1,3⟩ ↦ 0}`, cursor
of node 2 confirmed at `⟨1,3⟩`, contract rep-factor 3). -/
theorem entryIsCommitted_characterization_witness :
    CEx.ea1 ∈ CEx.aK3.log ∧
      (EntryIsCommitted CEx.aK3 CEx.ea1.entry_id CEx.aK3.follow_cursor 3 ↔
        (SpecAttachedQuorum CEx.ea1.entry_id CEx.aK3.follow_cursor 3 ∧
         (∀ e2 ∈ CEx.aK3.log, specLeId e2.entry_id CEx.ea1.entry_id →
            SpecAttachedQuorum e2.entry_id CEx.aK3.follow_cursor 3) ∧
         CEx.ea1.entry_id.epoch = CEx.aK3.epoch)) :=
  ⟨by decide,
   entryIsCommitted_characterization CEx.aK3 CEx.ea1 CEx.aK3.follow_cursor 3 (by decide)⟩

/-! ### C4: the contract-commit pre-check never regresses the commit index -/

/-- **C4.** When the leader handles `CommitReconfig(Contract, rep_factor,
old_node)` — matching term, reconfiguration in progress, `old_node`'s cursor
in `PendingRemoval` — the step requires the commit index recomputed without
`old_node` under the new rep factor to equal the current commit index, and
then removes the cursor, adopts the new rep factor, clears the in-progress
flag and replies success, leaving `commit_index` unchanged (so it never
decreases by this action); no other node's state changes.  (In the source the
pre-check is an enabling condition: when it fails the action simply cannot
fire, which is the claim's `otherwise it does not commit and its state is
unchanged`.)  The hypothesis `hids` states that each node record carries its
own id, as in every reachable state. -/
theorem leaderCommitContract_no_regress {NN NO NV : ℕ} (s s' : Sys NN NO NV)
    (hids : ∀ m : Fin NN, (s.node_state m).id = m)
    (h : LeaderHandlesCommitContractReconfigRequest s s') :
    ∃ (n old_node : Fin NN) (o : Fin NO) (ep rf : ℕ),
      (s.node_state n).status = .leader ∧
      (s.node_state n).epoch = ep ∧
      (s.node_state n).reconfig_inprog = true ∧
      ((s.node_state n).follow_cursor old_node).status = .pendingRemoval ∧
      IsSameId
        (NewCommitIndex (s.node_state n)
          (fun x => if x = old_node then NoCursor else (s.node_state n).follow_cursor x) rf)
        (s.node_state n).commit_index ∧
      (s'.node_state n).commit_index = (s.node_state n).commit_index ∧
      (s'.node_state n).rep_factor = rf ∧
      (s'.node_state n).follow_cursor old_node = NoCursor ∧
      (s'.node_state n).reconfig_inprog = false ∧
      (∀ m : Fin NN, m ≠ n → s'.node_state m = s.node_state m) ∧
      Msg.commitReconfigResponse .contract n o ep (some old_node) none ∈ s'.msgs := by
  obtain ⟨n, o, ep, rf, old_node, h1, h2, h3, h4, h5, h6, heq⟩ := h
  subst heq
  have hid := hids n
  refine ⟨n, old_node, o, ep, rf, h3, h2, h4, h5, h6, ?_, ?_, ?_, ?_, ?_, ?_⟩
  · show (Function.update s.node_state (s.node_state n).id _ n).commit_index = _
    rw [hid, Function.update_same]
  · show (Function.update s.node_state (s.node_state n).id _ n).rep_factor = _
    rw [hid, Function.update_same]
  · show (Function.update s.node_state (s.node_state n).id _ n).follow_cursor old_node = _
    rw [hid, Function.update_same]
    exact if_pos rfl
  · show (Function.update s.node_state (s.node_state n).id _ n).reconfig_inprog = _
    rw [hid, Function.update_same]
  · intro m hm
    show Function.update s.node_state (s.node_state n).id _ m = _
    rw [hid, Function.update_noteq hm]
  · exact Multiset.mem_add.mpr (Or.inr (Multiset.mem_singleton_self _))

/-- Witness for C4 at the trace step `CEx.s13 → CEx.s14` (leader node 0
commits the contract removing node 3 with rep factor 3). -/
theorem leaderCommitContract_no_regress_witness :
    ∃ (n old_node : Fin 4) (o : Fin 2) (ep rf : ℕ),
      (CEx.s13.node_state n).status = .leader ∧
      (CEx.s13.node_state n).epoch = ep ∧
      (CEx.s13.node_state n).reconfig_inprog = true ∧
      ((CEx.s13.node_state n).follow_cursor old_node).status = .pendingRemoval ∧
      IsSameId
        (NewCommitIndex (CEx.s13.node_state n)
          (fun x => if x = old_node then NoCursor
            else (CEx.s13.node_state n).follow_cursor x) rf)
        (CEx.s13.node_state n).commit_index ∧
      (CEx.s14.node_state n).commit_index = (CEx.s13.node_state n).commit_index ∧
      (CEx.s14.node_state n).rep_factor = rf ∧
      (CEx.s14.node_state n).follow_cursor old_node = NoCursor ∧
      (CEx.s14.node_state n).reconfig_inprog = false ∧
      (∀ m : Fin 4, m ≠ n → CEx.s14.node_state m = CEx.s13.node_state m) ∧
      Msg.commitReconfigResponse .contract n o ep (some old_node) none ∈ CEx.s14.msgs :=
  leaderCommitContract_no_regress CEx.s13 CEx.s14 (by decide) CEx.step14

/-! ### C6: the fence broadcast misses the fencing ensemble's new node -/

namespace C6x

/-- A commit-phase expand reconfiguration adding node 3. -/
def rc6 : ReconfigMeta 4 := ⟨.commit, .expand, 1, 4, none, some 3, some NoEntryId⟩

def md6 : Metadata 4 := ⟨.steadyState, 0, {0, 1, 2}, 3, some 0, some rc6⟩

def md6e : Metadata 4 := ⟨.election, 1, {0, 1, 2}, 3, none, some rc6⟩

def o6a : OperatorState 4 2 := ⟨0, .running, 0, some md6, .nil, ∅, ∅, none, ∅⟩

def o6b : OperatorState 4 2 :=
  ⟨0, .running, 1, some md6e, .fencing, Finset.univ, ∅, none, ∅⟩

def sA : Sys 4 2 2 :=
  ⟨0, md6, CEx.nsF (CEx.nd0 0) (CEx.nd0 1) (CEx.nd0 2) (CEx.nd0 3),
    CEx.osF o6a CEx.q0, CEx.cfF none none, 0, 0⟩

def sB : Sys 4 2 2 :=
  ⟨1, md6e, CEx.nsF (CEx.nd0 0) (CEx.nd0 1) (CEx.nd0 2) (CEx.nd0 3),
    CEx.osF o6b CEx.q0, CEx.cfF none none,
    {.fenceRequest 0 0 1, .fenceRequest 1 0 1, .fenceRequest 2 0 1}, 0⟩

theorem stepC6 : OperatorStartsElection CEx.oc sA sB := ⟨0, md6, by decide⟩

end C6x

/-- **C6.** The claim's first two parts hold of the source — the fencing
ensemble adds the new node of a commit-phase `NodeSwap`/`Expand`
reconfiguration, and the quorum is counted against that fencing ensemble
(stored as `election_fencing_ensemble`) — but the third is refuted: the fence
(`NewTerm`) broadcast goes to the metadata's old ensemble, not to the fencing
ensemble.  In the execution below node 3 is the new node of a commit-phase
expand, belongs to the fencing ensemble that the quorum is counted against,
and yet receives no fence request at any epoch, while every old-ensemble
member does. -/
theorem fencingBroadcast_misses_new_node :
    ∃ s s' : Sys 4 2 2,
      OperatorStartsElection CEx.oc s s' ∧
      s.metadata.reconfig = some C6x.rc6 ∧
      C6x.rc6.phase = .commit ∧
      C6x.rc6.op = .expand ∧
      C6x.rc6.new_node = some 3 ∧
      FencingEnsemble s.metadata = s.metadata.ensemble ∪ {3} ∧
      (s'.operator_state 0).election_fencing_ensemble = FencingEnsemble s.metadata ∧
      (3 : Fin 4) ∉ s.metadata.ensemble ∧
      (3 : Fin 4) ∈ FencingEnsemble s.metadata ∧
      (∀ ep : ℕ, Msg.fenceRequest 3 0 ep ∉ s'.msgs) ∧
      (∀ n ∈ s.metadata.ensemble, Msg.fenceRequest n 0 (s.metadata.epoch + 1) ∈ s'.msgs) := by
  refine ⟨C6x.sA, C6x.sB, C6x.stepC6, by decide, by decide, by decide, by decide,
    by decide, by decide, by decide, by decide, ?_, by decide⟩
  intro ep h
  have h2 : Msg.fenceRequest 3 0 ep ∈
      ({.fenceRequest 0 0 1, .fenceRequest 1 0 1, .fenceRequest 2 0 1} :
        Multiset (Msg 4 2 2)) := h
  simp only [Multiset.insert_eq_cons, Multiset.mem_cons, Multiset.mem_singleton] at h2
  rcases h2 with h2 | h2 | h2 <;>
    · injection h2 with e1 e2 e3
      exact absurd e1 (by decide)

/-! ### C7: the elected leader has the greatest head index -/

/-- **C7.** When `WinnerNode` (the source's `WinnerResponse`, its `CHOOSE`
determinized by greatest head index then least node id) picks `w`, then `w`
is the node of a fence response, lies in the final ensemble, no responder of
the final ensemble reported a head index above `w`'s under the lexicographic
`(term, offset)` order, and among responders of the final ensemble tying on
that greatest head index `w` has the least node id — a deterministic
tie-break in stable node id order. -/
theorem winnerNode_greatest_head {NN NO : ℕ} (responses : Finset (FenceResp NN NO))
    (fe : Finset (Fin NN)) (w : Fin NN)
    (hw : WinnerNode responses fe = some w) :
    ∃ r ∈ responses, r.node ∈ fe ∧ r.node = w ∧
      (∀ r2 ∈ responses, r2.node ∈ fe → specLeId r2.head_index r.head_index) ∧
      (∀ r2 ∈ responses, r2.node ∈ fe → r2.head_index = r.head_index → w ≤ r2.node) := by
  unfold WinnerNode at hw
  dsimp only [] at hw
  split at hw
  · exact Option.noConfusion hw
  · rename_i mh hmax
    have hwmem := Finset.mem_of_min hw
    obtain ⟨r, hrmem, hrn⟩ := Finset.mem_image.mp hwmem
    obtain ⟨hrc, hrh⟩ := Finset.mem_filter.mp hrmem
    obtain ⟨hrresp, hrfe⟩ := Finset.mem_filter.mp hrc
    refine ⟨r, hrresp, hrfe, hrn, ?_, ?_⟩
    · intro r2 h2resp h2fe
      have h2c : r2 ∈ responses.filter (fun x => x.node ∈ fe) :=
        Finset.mem_filter.mpr ⟨h2resp, h2fe⟩
      have hle := Finset.le_max (Finset.mem_image_of_mem (fun x => x.head_index) h2c)
      rw [hmax] at hle
      rw [specLeId_iff, hrh]
      exact WithBot.coe_le_coe.mp hle
    · intro r2 h2resp h2fe h2h
      have h2c : r2 ∈ (responses.filter (fun x => x.node ∈ fe)).filter
          (fun x => x.head_index = mh) :=
        Finset.mem_filter.mpr ⟨Finset.mem_filter.mpr ⟨h2resp, h2fe⟩, by rw [h2h, hrh]⟩
      have hle := Finset.min_le (Finset.mem_image_of_mem (fun x => x.node) h2c)
      rw [hw] at hle
      exact WithTop.coe_le_coe.mp hle

/-- Witness for C7 at the epoch-1 election of the trace: all three responders
report head `NoEntryId`, node 0 wins by the id tie-break. -/
theorem winnerNode_greatest_head_witness :
    WinnerNode {CEx.fra, CEx.frb, CEx.frc} (Finset.univ : Finset (Fin 4)) = some 0 ∧
    (∃ r ∈ ({CEx.fra, CEx.frb, CEx.frc} : Finset (FenceResp 4 2)),
      r.node ∈ (Finset.univ : Finset (Fin 4)) ∧ r.node = 0 ∧
      (∀ r2 ∈ ({CEx.fra, CEx.frb, CEx.frc} : Finset (FenceResp 4 2)),
        r2.node ∈ (Finset.univ : Finset (Fin 4)) → specLeId r2.head_index r.head_index) ∧
      (∀ r2 ∈ ({CEx.fra, CEx.frb, CEx.frc} : Finset (FenceResp 4 2)),
        r2.node ∈ (Finset.univ : Finset (Fin 4)) → r2.head_index = r.head_index →
          (0 : Fin 4) ≤ r2.node)) :=
  ⟨by decide, winnerNode_greatest_head {CEx.fra, CEx.frb, CEx.frc} Finset.univ 0 (by decide)⟩

/-! ### C8: what a node really does with an AddEntry request -/

namespace C8x

def e51 : LogEntry 2 := ⟨⟨5, 1⟩, some 0⟩

def e61 : LogEntry 2 := ⟨⟨6, 1⟩, some 1⟩

/-- A follower whose commit index `⟨5,1⟩` is ahead of the incoming request's. -/
def nC : NodeState 4 2 := ⟨2, .follower, 1, some 0, 0, {e51}, ⟨5, 1⟩, ⟨5, 1⟩, CEx.cur4none, false⟩

def nD : NodeState 4 2 :=
  ⟨2, .follower, 1, some 0, 0, {e51, e61}, ⟨3, 1⟩, ⟨6, 1⟩, CEx.cur4none, false⟩

def sA : Sys 4 2 2 :=
  ⟨2, CEx.mdS1, CEx.nsF (CEx.nd0 0) (CEx.nd0 1) nC (CEx.nd0 3),
    CEx.osF CEx.p0 CEx.q0, CEx.cfF none none,
    {.addEntryRequest 2 0 e61 ⟨3, 1⟩ 1}, 0⟩

def sB : Sys 4 2 2 :=
  ⟨2, CEx.mdS1, CEx.nsF (CEx.nd0 0) (CEx.nd0 1) nD (CEx.nd0 3),
    CEx.osF CEx.p0 CEx.q0, CEx.cfF none none,
    {.addEntryResponse 0 2 .ok ⟨6, 1⟩ 1}, 0⟩

theorem stepC8 : FollowerConfirmsEntry sA sB := ⟨2, 0, e61, ⟨3, 1⟩, 1, by decide⟩

end C8x

/-- **C8** (counterexample to the claimed `commit_index` update): the source's
`FollowerConfirmsEntry` overwrites the follower's commit index with the
request's commit index, not with the max of the two.  Below, a follower with
commit index `⟨offset 5, term 1⟩` accepts an entry whose request carries
commit index `⟨3, 1⟩` and ends with commit index `⟨3, 1⟩`, which differs from
the max `⟨5, 1⟩` the claim requires. -/
theorem followerConfirmsEntry_commitIndex_not_max :
    ∃ s s' : Sys 4 2 2, FollowerConfirmsEntry s s' ∧
      (s.node_state 2).commit_index = ⟨5, 1⟩ ∧
      Msg.addEntryRequest 2 0 C8x.e61 ⟨3, 1⟩ 1 ∈ s.msgs ∧
      (s'.node_state 2).commit_index = ⟨3, 1⟩ ∧
      (s'.node_state 2).commit_index ≠
        max (s.node_state 2).commit_index (⟨3, 1⟩ : EntryId) :=
  ⟨C8x.sA, C8x.sB, C8x.stepC8, by decide, by decide, by decide, by decide⟩

/-- **C8** (corrected): a node accepting an AddEntry request — which requires
`Follower` or `Fenced` status (a `Leader`-status node with an equal-or-lower
term does neither accept nor reply, contrary to the claim's unconditional
`otherwise`) and its term at most the request's — becomes `Follower` with the
sender as leader, adopts the request term, appends the entry idempotently,
sets `head_index` to the entry's id, sets `commit_index` to the request's
commit index (not to the max with its own), and replies `Ok` with the entry
id and its pre-update term.  Rejection (`FollowerRejectsEntry`) fires exactly
when the node's term is strictly greater. -/
theorem followerConfirmsEntry_effect {NN NO NV : ℕ} (s s' : Sys NN NO NV)
    (h : FollowerConfirmsEntry s s') :
    ∃ (dn sn : Fin NN) (entry : LogEntry NV) (ci : EntryId) (ep : ℕ),
      EarliestAddEntryRequest s.msgs dn sn entry ci ep ∧
      ((s.node_state dn).status = .follower ∨ (s.node_state dn).status = .fenced) ∧
      (s.node_state dn).epoch ≤ ep ∧
      (s'.node_state dn).status = .follower ∧
      (s'.node_state dn).epoch = ep ∧
      (s'.node_state dn).leader = some sn ∧
      (s'.node_state dn).log = insert entry (s.node_state dn).log ∧
      (s'.node_state dn).head_index = entry.entry_id ∧
      (s'.node_state dn).commit_index = ci ∧
      Msg.addEntryResponse sn (s.node_state dn).id .ok entry.entry_id
        (s.node_state dn).epoch ∈ s'.msgs := by
  obtain ⟨dn, sn, entry, ci, ep, h1, h2, h3, heq⟩ := h
  subst heq
  refine ⟨dn, sn, entry, ci, ep, h1, h2, h3, ?_, ?_, ?_, ?_, ?_, ?_, ?_⟩
  · show (Function.update s.node_state dn _ dn).status = _
    rw [Function.update_same]
  · show (Function.update s.node_state dn _ dn).epoch = _
    rw [Function.update_same]
  · show (Function.update s.node_state dn _ dn).leader = _
    rw [Function.update_same]
  · show (Function.update s.node_state dn _ dn).log = _
    rw [Function.update_same]
  · show (Function.update s.node_state dn _ dn).head_index = _
    rw [Function.update_same]
  · show (Function.update s.node_state dn _ dn).commit_index = _
    rw [Function.update_same]
  · exact Multiset.mem_add.mpr (Or.inr (Multiset.mem_singleton_self _))

/-- Witness for the corrected C8 at the concrete acceptance `C8x.sA → C8x.sB`. -/
theorem followerConfirmsEntry_effect_witness :
    ∃ (dn sn : Fin 4) (entry : LogEntry 2) (ci : EntryId) (ep : ℕ),
      EarliestAddEntryRequest C8x.sA.msgs dn sn entry ci ep ∧
      ((C8x.sA.node_state dn).status = .follower ∨
        (C8x.sA.node_state dn).status = .fenced) ∧
      (C8x.sA.node_state dn).epoch ≤ ep ∧
      (C8x.sB.node_state dn).status = .follower ∧
      (C8x.sB.node_state dn).epoch = ep ∧
      (C8x.sB.node_state dn).leader = some sn ∧
      (C8x.sB.node_state dn).log = insert entry (C8x.sA.node_state dn).log ∧
      (C8x.sB.node_state dn).head_index = entry.entry_id ∧
      (C8x.sB.node_state dn).commit_index = ci ∧
      Msg.addEntryResponse sn (C8x.sA.node_state dn).id .ok entry.entry_id
        (C8x.sA.node_state dn).epoch ∈ C8x.sB.msgs :=
  followerConfirmsEntry_effect C8x.sA C8x.sB C8x.stepC8
